import Mathlib

/-!
Verification of the conversational transaction-confirmation pipeline of the
opBNB AI assistant: the Gemini response parser with its token-creation
defaulting and send-transaction validation (`services/geminiAI.ts`), the
conversation store with its confirm/reject actions and persistence
boundary (`store/conversationStore.ts`), and the chat component's
confirmation gate and NFT upload/detail negotiation
(`components/Dashboard/AIChat.tsx`).

Dynamic JavaScript values flowing out of `JSON.parse` are modelled by the
`Json` inductive; property reads that would throw a `TypeError` at runtime
(reads on `undefined`/`null`, property writes on primitives in strict
mode) are modelled by `Option`, with `none` feeding the surrounding
`try`/`catch` fallback, exactly as in the source.  External collaborators
(the Gemini oracle, `JSON.parse` itself, the blockchain submission
service, the gas-estimating confirmation composer and the wallet store)
are passed in as explicit parameters, mirroring their black-box role.
-/

/-- Dynamic (JSON-shaped) JavaScript values.  Numbers are modelled as
rationals, which covers every literal appearing in the pipeline. -/
inductive Json where
  | obj (fields : List (String × Json))
  | arr (elems : List Json)
  | str (s : String)
  | num (q : Rat)
  | jbool (b : Bool)
  | null

/-- First-match field lookup in an object's field list (`o.k`); `none`
models reading an absent property (JavaScript `undefined`). -/
def lookupField (fields : List (String × Json)) (k : String) : Option Json :=
  match fields with
  | [] => none
  | (k2, v) :: rest => if k2 = k then some v else lookupField rest k

/-- Property read `j.k`; non-objects have no named properties. -/
def Json.getField (j : Json) (k : String) : Option Json :=
  match j with
  | .obj fields => lookupField fields k
  | _ => none

/-- JavaScript truthiness of a defined value. -/
def Json.truthy : Json → Bool
  | .str s => decide (s ≠ "")
  | .num q => decide (q ≠ 0)
  | .jbool b => b
  | .null => false
  | .obj _ => true
  | .arr _ => true

/-- Truthiness of a possibly-`undefined` value. -/
def truthyOpt : Option Json → Bool
  | none => false
  | some v => v.truthy

/-- Property write `o.k = v`: overwrites an existing key in place,
otherwise appends the key. -/
def setFields (fields : List (String × Json)) (k : String) (v : Json) :
    List (String × Json) :=
  if (lookupField fields k).isSome then
    fields.map (fun p => if p.1 = k then (k, v) else p)
  else fields ++ [(k, v)]

/-- Property write on a `Json` value (only ever applied to objects). -/
def Json.setField (j : Json) (k : String) (v : Json) : Json :=
  match j with
  | .obj fields => .obj (setFields fields k v)
  | j => j

/-- The string content of a string value. -/
def Json.asStr? : Json → Option String
  | .str s => some s
  | _ => none

/-- Rendered text of a message payload; the UI renders non-string
payloads opaquely and their text is not modelled. -/
def Json.display : Json → String
  | .str s => s
  | _ => ""

/-- `o = some (.str s)` test, modelling `x === 's'` on a dynamic value. -/
def isStrV (o : Option Json) (s : String) : Bool :=
  match o with
  | some (.str t) => t = s
  | _ => false

/-! ### String scanning utilities (models of `includes`, `match`, …) -/

/-- Boolean list-prefix test. -/
def isPrefixCL (pat l : List Char) : Bool :=
  match pat, l with
  | [], _ => true
  | _ :: _, [] => false
  | a :: as, b :: bs => a = b && isPrefixCL as bs

/-- Boolean contiguous-sublist test (JavaScript `String.includes`). -/
def containsL (pat : List Char) : List Char → Bool
  | [] => isPrefixCL pat []
  | b :: bs => isPrefixCL pat (b :: bs) || containsL pat bs

/-- `s.includes(pat)`. -/
def strIncludes (s pat : String) : Bool := containsL pat.data s.data

/-- Case-insensitive prefix test (for `/…/i` regex literals). -/
def isPrefixCI (pat l : List Char) : Bool :=
  isPrefixCL (pat.map Char.toLower) (l.map Char.toLower)

/-- Trim leading and trailing whitespace of a character list. -/
def trimL (l : List Char) : List Char :=
  ((l.dropWhile Char.isWhitespace).reverse.dropWhile Char.isWhitespace).reverse

/-- JavaScript `toLowerCase()` (character-wise). -/
def jsToLower (s : String) : String := ⟨s.data.map Char.toLower⟩

/-- JavaScript `trim()`. -/
def jsTrim (s : String) : String := ⟨trimL s.data⟩

/-- JavaScript `String.length` (code-point count for the inputs modelled). -/
def jsLength (s : String) : Nat := s.data.length

/-! ### DefaultingEngine: `generateTokenSymbol` / `generateSmartTotalSupply` -/

/-- The generic words stripped from a token name by `generateTokenSymbol`
(the `\b(token|coin|currency|crypto|digital|blockchain)\b` replace). -/
def genericWords : List (List Char) :=
  ["token".data, "coin".data, "currency".data, "crypto".data,
   "digital".data, "blockchain".data]

/-- A regex word character (`\w`). -/
def isWordChar (c : Char) : Bool := c.isAlphanum || c = '_'

/-- Emit a completed word-character run (held reversed): deleted when it
case-insensitively equals one of `genericWords`, kept otherwise. -/
def emitRun (run : List Char) : List Char :=
  let w := run.reverse
  if genericWords.contains (w.map Char.toLower) then [] else w

/-- Worker for `stripGenericAux`: `run` is the reversed word-character run
currently being read. -/
def stripGenericGo (run : List Char) : List Char → List Char
  | [] => emitRun run
  | c :: cs =>
    if isWordChar c then stripGenericGo (c :: run) cs
    else emitRun run ++ c :: stripGenericGo [] cs

/-- Delete every maximal word-character run that case-insensitively equals
one of `genericWords` (the word-boundary-anchored replace). -/
def stripGenericAux (l : List Char) : List Char := stripGenericGo [] l

/-- Split into nonempty maximal whitespace-free words
(`split(/\s+/).filter(length > 0)`). -/
def wordsOfAux (acc : List Char) : List Char → List (List Char)
  | [] => if acc = [] then [] else [acc.reverse]
  | c :: cs =>
    if c.isWhitespace then
      if acc = [] then wordsOfAux [] cs else acc.reverse :: wordsOfAux [] cs
    else wordsOfAux (c :: acc) cs

/-- The word list of a (stripped) token name. -/
def wordsOf (l : List Char) : List (List Char) := wordsOfAux [] l

/-- The word-count case analysis of `generateTokenSymbol`: fallback
`'TKN'` with no words; first 3-4 letters of a single word; two letters
of each of two words truncated to 4; initials (up to 4, padded with a
trailing `'N'` under 3) for three or more words. -/
def symbolFromWords : List (List Char) → String
  | [] => "TKN"
  | [w] =>
    let u := w.map Char.toUpper
    ⟨if u.length > 4 then u.take 4 else u⟩
  | [w1, w2] =>
    ⟨(((w1.map Char.toUpper).take 2) ++ ((w2.map Char.toUpper).take 2)).take 4⟩
  | words =>
    let acronym := (words.map (fun w => Char.toUpper (w.headD 'x'))).take 4
    ⟨if acronym.length < 3 then acronym ++ ['N'] else acronym⟩

/-- `generateTokenSymbol` from `services/geminiAI.ts`: strip generic words,
then derive a symbol from the remaining words. -/
def generateTokenSymbol (tokenName : String) : String :=
  symbolFromWords (wordsOf (trimL (stripGenericAux tokenName.data)))

/-- Gaming-keyword test of `generateSmartTotalSupply`. -/
def hasGamingKw (low : String) : Bool :=
  strIncludes low "game" || strIncludes low "gaming" || strIncludes low "play" ||
    strIncludes low "quest" || strIncludes low "rpg" || strIncludes low "nft"

/-- Meme-keyword test of `generateSmartTotalSupply`. -/
def hasMemeKw (low : String) : Bool :=
  strIncludes low "meme" || strIncludes low "pepe" || strIncludes low "doge" ||
    strIncludes low "shib" || strIncludes low "moon" || strIncludes low "rocket"

/-- Governance-keyword test of `generateSmartTotalSupply`. -/
def hasGovernanceKw (low : String) : Bool :=
  strIncludes low "govern" || strIncludes low "vote" || strIncludes low "dao" ||
    strIncludes low "council" || strIncludes low "proposal"

/-- Utility-keyword test of `generateSmartTotalSupply`. -/
def hasUtilityKw (low : String) : Bool :=
  strIncludes low "utility" || strIncludes low "app" || strIncludes low "platform" ||
    strIncludes low "service" || strIncludes low "network"

/-- Stablecoin-keyword test of `generateSmartTotalSupply`. -/
def hasStablecoinKw (low : String) : Bool :=
  strIncludes low "stable" || strIncludes low "usd" || strIncludes low "dollar" ||
    strIncludes low "peg"

/-- `generateSmartTotalSupply` from `services/geminiAI.ts`: keyword-driven
default total supply, first matching category wins. -/
def generateSmartTotalSupply (tokenName : String) : String :=
  let name := jsToLower tokenName
  if hasGamingKw name then "1000000000"
  else if hasMemeKw name then "1000000000000"
  else if hasGovernanceKw name then "10000000"
  else if hasUtilityKw name then "100000000"
  else if hasStablecoinKw name then "1000000"
  else "1000000"

example : generateTokenSymbol "Dragon Quest Token" = "DRQU" := by decide
example : generateTokenSymbol "Hi" = "HI" := by decide
example : generateTokenSymbol "token coin" = "TKN" := by decide
example : generateTokenSymbol "My Coin" = "MY" := by decide
example : generateSmartTotalSupply "Dragon Quest Token" = "1000000000" := by decide
example : generateSmartTotalSupply "Hi" = "1000000" := by decide

/-! ### IntentExtractor: `parseAIResponse` / `processUserInput` -/

/-- Split a character list at the first occurrence of `pat`, returning
the text before it and the text after it. -/
def splitFirstL (pat : List Char) : List Char → Option (List Char × List Char)
  | [] => if pat.isEmpty then some ([], []) else none
  | c :: cs =>
    if isPrefixCL pat (c :: cs) then some ([], (c :: cs).drop pat.length)
    else
      match splitFirstL pat cs with
      | some (pre, suf) => some (c :: pre, suf)
      | none => none

/-- The fenced-JSON extraction regex of `parseAIResponse`: first fence
opening, then the lazily-shortest body up to the next closing fence. -/
def extractFencedJson (s : String) : Option String :=
  match splitFirstL "```json\n".data s.data with
  | none => none
  | some (_, rest) =>
    match splitFirstL "\n```".data rest with
    | none => none
    | some (body, _) => some ⟨body⟩

/-- Result shape of `processUserInput` / `parseAIResponse`. -/
structure AIResult where
  response : Json
  action : Option Json
  requiresConfirmation : Bool

/-- Models `tokenDetails.name || ''` flowing into a string helper: a falsy
value collapses to `""`; a truthy non-string later throws inside
`toLowerCase()`/`replace()`, modelled by `none`. -/
def jsNameOrEmpty : Option Json → Option String
  | none => some ""
  | some v => if v.truthy then v.asStr? else some ""

/-- The `create_token` defaulting block of `parseAIResponse`: fill
`decimals` (always `'18'`), `totalSupply` (keyword heuristic) and
`symbol` (derived from the name) when absent.  `none` models a thrown
`TypeError` (details missing or not an object, or a truthy non-string
name), absorbed by the surrounding `catch`. -/
def applyTokenDefaults (act : Json) : Option Json :=
  match act.getField "details" with
  | some (.obj d) =>
    let d1 := if truthyOpt (lookupField d "decimals") then d
              else setFields d "decimals" (.str "18")
    let supplied? : Option (List (String × Json)) :=
      if truthyOpt (lookupField d1 "totalSupply") then some d1
      else (jsNameOrEmpty (lookupField d1 "name")).map
             (fun n => setFields d1 "totalSupply" (.str (generateSmartTotalSupply n)))
    match supplied? with
    | none => none
    | some d2 =>
      if !truthyOpt (lookupField d2 "symbol") && truthyOpt (lookupField d2 "name") then
        match lookupField d2 "name" with
        | some (.str n) =>
          some (act.setField "details"
                  (.obj (setFields d2 "symbol" (.str (generateTokenSymbol n)))))
        | _ => none
      else some (act.setField "details" (.obj d2))
  | _ => none

/-- The `send_transaction` validation block of `parseAIResponse`: default
the token to `'BNB'` when falsy or empty, then recompute `missingFields`
(recipient and amount only) and `isComplete`.  `none` models a thrown
`TypeError` on non-object details. -/
def applySendTxValidation (act : Json) : Option Json :=
  match act.getField "details" with
  | some (.obj d) =>
    let d1 := if truthyOpt (lookupField d "token") then d
              else setFields d "token" (.str "BNB")
    let missing : List String :=
      (if truthyOpt (lookupField d1 "recipient") then [] else ["recipient"]) ++
        (if truthyOpt (lookupField d1 "amount") then [] else ["amount"])
    some (((act.setField "details" (.obj d1)).setField "missingFields"
            (.arr (missing.map Json.str))).setField "isComplete"
            (.jbool missing.isEmpty))
  | _ => none

/-- The body of `parseAIResponse` after a successful `JSON.parse`:
per-kind post-processing, then extraction of the result triple.  `none`
models a `TypeError` thrown inside the `try` (e.g. reads on a `null`
root), landing in the raw-text fallback. -/
def processParsed (aiResponse : String) (j : Json) : Option AIResult :=
  match j with
  | .null => none
  | j =>
    let act0 := j.getField "action"
    let kind := act0.bind (fun a => (a.getField "action").bind Json.asStr?)
    let j1? : Option Json :=
      if kind = some "create_token" then
        match act0 with
        | some act => (applyTokenDefaults act).map (fun act2 => j.setField "action" act2)
        | none => some j
      else some j
    match j1? with
    | none => none
    | some j1 =>
      let j2? : Option Json :=
        if kind = some "send_transaction" then
          match j1.getField "action" with
          | some act => (applySendTxValidation act).map (fun act2 => j1.setField "action" act2)
          | none => some j1
        else some j1
      match j2? with
      | none => none
      | some j2 =>
        let j3 :=
          if kind = some "upload_nft" then
            (match j2.getField "action" with
             | some act => j2.setField "action" (act.setField "isComplete" (.jbool true))
             | none => j2).setField "requiresConfirmation" (.jbool true)
          else j2
        some { response := (match j3.getField "response" with
                            | some v => if v.truthy then v else .str aiResponse
                            | none => .str aiResponse),
               action := (match j3.getField "action" with
                          | some v => if v.truthy then some v else none
                          | none => none),
               requiresConfirmation := truthyOpt (j3.getField "requiresConfirmation") }

/-- `parseAIResponse` from `services/geminiAI.ts`.  `jp` is the external
`JSON.parse` runtime primitive, `none` meaning it throws on that input.
No fenced block, an unparsable fenced block, or a `TypeError` inside the
`try` all land in the plain-text fallback. -/
def parseAIResponse (jp : String → Option Json) (aiResponse : String) : AIResult :=
  let fallback : AIResult := ⟨.str aiResponse, none, false⟩
  match extractFencedJson aiResponse with
  | none => fallback
  | some jsonStr =>
    match jp jsonStr with
    | none => fallback
    | some j =>
      match processParsed aiResponse j with
      | none => fallback
      | some r => r

/-- The fixed apologetic reply returned when the oracle call throws. -/
def apologyText : String :=
  "I apologize, but I encountered an error processing your request. Please try again."

/-- `processUserInput` from `services/geminiAI.ts`: the oracle call is an
external effect, modelled by its outcome (`.error` = the call threw). -/
def processUserInput (jp : String → Option Json) (oracle : Except Unit String) :
    AIResult :=
  match oracle with
  | .error _ => ⟨.str apologyText, none, false⟩
  | .ok text => parseAIResponse jp text

/-! ### Conversation store (`store/conversationStore.ts`) -/

/-- Message author. -/
inductive MsgType where
  | user
  | ai
deriving DecidableEq

/-- One turn of the visible transcript (`ConversationMessage`).
Timestamps are epoch milliseconds, the value wrapped by the runtime
`Date`. -/
structure ConversationMessage where
  id : String
  type : MsgType
  content : String
  timestamp : Int
  action : Option Json := none
  requiresConfirmation : Option Bool := none
  showUpload : Option Bool := none
  uploadedImage : Option (String × String) := none

/-- The single outstanding action awaiting confirmation
(`PendingAction`). -/
structure PendingAction where
  action : Json
  messageId : String
  isWaitingForConfirmation : Bool

/-- The store's state (`ConversationState`). -/
structure ConversationState where
  messages : List ConversationMessage
  pendingAction : Option PendingAction
  isProcessing : Bool

/-- Result reported by a blockchain submission collaborator
(`BlockchainService.createToken` / `mintNFT` / `sendTransaction`). -/
structure ExecSuccess where
  hash : String
  contractAddress : Option String := none
  tokenId : Option String := none
  explorerUrl : Option String := none

/-- Outcome of one submission call: reported success, reported failure,
or a thrown exception. -/
inductive ExecResult where
  | ok (s : ExecSuccess)
  | fail (error : String)
  | threw (msg : String)

/-- External collaborators and runtime-generated values threaded through
one turn: the decrypted signing key when the wallet store has one
(`none` models the thrown wallet/decryption failure), the submission
dispatch, the gas-estimating confirmation composer (`.error` = it
threw), and the id/timestamp the runtime mints for appended messages. -/
structure Env where
  wallet : Option String
  walletAddress : String
  exec : String → Option Json → ExecResult
  genConfirm : Json → Except Unit String
  freshId : String
  now : Int

/-- A message as appended by the store's `addMessage` (id and timestamp
minted by the runtime). -/
def mkMsg (env : Env) (ty : MsgType) (content : String) : ConversationMessage :=
  { id := env.freshId, type := ty, content := content, timestamp := env.now }

/-- Truthiness of an optional collaborator-report string field. -/
def optStrTruthy : Option String → Bool
  | none => false
  | some s => decide (s ≠ "")

/-- Success message composed by `confirmAction`. -/
def successContent (r : ExecSuccess) : String :=
  "✅ **Transaction Successful!**\n\n" ++
    "🔗 **Transaction Hash**: `" ++ r.hash ++ "`\n" ++
    (if optStrTruthy r.contractAddress then
      "📄 **Contract Address**: `" ++ r.contractAddress.getD "" ++ "`\n" else "") ++
    (if optStrTruthy r.tokenId then
      "🎨 **Token ID**: `" ++ r.tokenId.getD "" ++ "`\n" else "") ++
    (if optStrTruthy r.explorerUrl then
      "\n[View on Explorer](" ++ r.explorerUrl.getD "" ++ ")" else "")

/-- Failure message composed by `confirmAction` from a collaborator-reported
error. -/
def failedContent (e : String) : String := "❌ **Transaction Failed**\n\n" ++ e

/-- Failure message composed by `confirmAction`'s `catch` from a thrown
error (`error.message || 'Unknown error occurred'`). -/
def caughtContent (m : String) : String :=
  failedContent (if m = "" then "Unknown error occurred" else m)

/-- Template-string rendering of a dynamic value (numeric and array
renderings are not modelled; no analysed text depends on them). -/
def jsDisplayValue : Option Json → String
  | some (.str s) => s
  | none => "undefined"
  | some .null => "null"
  | some (.jbool true) => "true"
  | some (.jbool false) => "false"
  | some (.num _) => ""
  | some (.obj _) => "[object Object]"
  | some (.arr _) => ""

/-- `confirmAction` from `store/conversationStore.ts`: when a pending
action exists, obtain the signing key, dispatch by action kind to the
submission collaborator, and append the normalized result message; every
path out of the `try`/`catch` clears the pending action and the
processing flag.  The second component counts submission-collaborator
calls made. -/
def confirmAction (env : Env) (st : ConversationState) : ConversationState × Nat :=
  match st.pendingAction with
  | none => (st, 0)
  | some pa =>
    let kind := (pa.action.getField "action").bind Json.asStr?
    match env.wallet with
    | none =>
      ({ messages := st.messages ++ [mkMsg env .ai (caughtContent "Wallet not connected")],
         pendingAction := none, isProcessing := false }, 0)
    | some _key =>
      if kind = some "create_token" ∨ kind = some "mint_nft" ∨
          kind = some "send_transaction" then
        match env.exec (kind.getD "") (pa.action.getField "details") with
        | .ok s =>
          ({ messages := st.messages ++ [mkMsg env .ai (successContent s)],
             pendingAction := none, isProcessing := false }, 1)
        | .fail e =>
          ({ messages := st.messages ++ [mkMsg env .ai (failedContent e)],
             pendingAction := none, isProcessing := false }, 1)
        | .threw m =>
          ({ messages := st.messages ++ [mkMsg env .ai (caughtContent m)],
             pendingAction := none, isProcessing := false }, 1)
      else
        ({ messages := st.messages ++ [mkMsg env .ai
              (caughtContent ("Unsupported action: " ++
                jsDisplayValue (pa.action.getField "action")))],
           pendingAction := none, isProcessing := false }, 0)

/-- `rejectAction`: discard the pending action. -/
def rejectAction (st : ConversationState) : ConversationState :=
  { st with pendingAction := none }

/-! ### Persistence boundary (`partialize` / `merge`) -/

/-- A persisted message: identical fields, timestamp in the portable
string form. -/
structure SerializedMessage where
  id : String
  type : MsgType
  content : String
  timestamp : String
  action : Option Json := none
  requiresConfirmation : Option Bool := none
  showUpload : Option Bool := none
  uploadedImage : Option (String × String) := none

/-- Spread-copy of one message with `timestamp: msg.timestamp.toISOString()`;
`toISO` is the runtime `Date.prototype.toISOString`. -/
def serializeMessage (toISO : Int → String) (m : ConversationMessage) :
    SerializedMessage :=
  { id := m.id, type := m.type, content := m.content, timestamp := toISO m.timestamp,
    action := m.action, requiresConfirmation := m.requiresConfirmation,
    showUpload := m.showUpload, uploadedImage := m.uploadedImage }

/-- `partialize`: keep the last 50 messages (`slice(-50)`), with
timestamps converted to the portable string form. -/
def partializeMessages (toISO : Int → String) (msgs : List ConversationMessage) :
    List SerializedMessage :=
  (msgs.drop (msgs.length - 50)).map (serializeMessage toISO)

/-- Spread-copy of one persisted message with
`timestamp: new Date(msg.timestamp)`; `parseDate` is the runtime `Date`
constructor on strings. -/
def restoreMessage (parseDate : String → Int) (m : SerializedMessage) :
    ConversationMessage :=
  { id := m.id, type := m.type, content := m.content,
    timestamp := parseDate m.timestamp, action := m.action,
    requiresConfirmation := m.requiresConfirmation,
    showUpload := m.showUpload, uploadedImage := m.uploadedImage }

/-- The message-restoring map inside `merge`. -/
def mergeMessages (parseDate : String → Int) (persisted : List SerializedMessage) :
    List ConversationMessage :=
  persisted.map (restoreMessage parseDate)

/-- `merge`: spread the persisted slice (when present) over the current
state, restoring timestamps. -/
def mergeState (parseDate : String → Int)
    (persistedMessages : Option (List SerializedMessage))
    (current : ConversationState) : ConversationState :=
  match persistedMessages with
  | some pm => { current with messages := mergeMessages parseDate pm }
  | none => current

/-! ### Chat component (`components/Dashboard/AIChat.tsx`) -/

/-- The component's `pendingNFTDetails` slot: raw detail values captured
from an `upload_nft` action before the image upload ran. -/
structure NFTDetailsPending where
  name : Option Json
  description : Option Json

/-- Store state plus the component's local state (`uploadedImage`,
`isWaitingForNFTDetails`, `pendingNFTDetails`). -/
structure ChatState where
  conv : ConversationState
  uploadedImage : Option (String × String)
  isWaitingForNFTDetails : Bool
  pendingNFTDetails : Option NFTDetailsPending

/-- Append one assistant message. -/
def pushAi (env : Env) (st : ChatState) (content : String) : ChatState :=
  { st with conv := { st.conv with
      messages := st.conv.messages ++ [mkMsg env .ai content] } }

/-- The fixed affirmative replies of the confirmation gate. -/
def affirmativeReplies : List String := ["yes", "y", "confirm", "proceed", "ok", "sure"]

/-- The fixed negative replies of the confirmation gate. -/
def negativeReplies : List String := ["no", "n", "cancel", "abort", "stop"]

/-- Cancellation message appended on a negative reply. -/
def cancellationText : String :=
  "❌ **Action Cancelled**\n\nNo problem! The action has been cancelled. Is there something else I can help you with?"

/-- Re-prompt appended on an unrecognized confirmation reply. -/
def unclearText : String :=
  "I didn't understand your response. Please reply with **\"Yes\"** to confirm or **\"No\"** to cancel the action."

/-- `handleConfirmationResponse`: interpret the trimmed lowercased reply
against the fixed affirmative and negative sets; the second component
counts `confirmAction` (executor) invocations. -/
def handleConfirmationResponse (env : Env) (st : ChatState) (input : String) :
    ChatState × Nat :=
  let normalizedInput := jsTrim (jsToLower input)
  if affirmativeReplies.contains normalizedInput then
    let c := (confirmAction env { st.conv with isProcessing := true }).1
    ({ st with conv := { c with isProcessing := false } }, 1)
  else if negativeReplies.contains normalizedInput then
    ({ st with conv :=
        { st.conv with
          pendingAction := none
          messages := st.conv.messages ++ [mkMsg env .ai cancellationText] } }, 0)
  else
    ({ st with conv := { st.conv with
        messages := st.conv.messages ++ [mkMsg env .ai unclearText] } }, 0)

/-! #### NFT-detail free-text parsing cascade -/

/-- Attempt the optional description tail of the `called` regex at the
current position: at least one whitespace character, the literal
`description` (case-insensitively), at least one more whitespace
character, then a nonempty newline-free remainder running to the end. -/
def tryDescAt (l : List Char) : Option (List Char) :=
  let ws1 := l.takeWhile Char.isWhitespace
  let r1 := l.dropWhile Char.isWhitespace
  if ws1.isEmpty then none
  else if isPrefixCI "description".data r1 then
    let r2 := r1.drop 11
    let ws2 := r2.takeWhile Char.isWhitespace
    let r3 := r2.dropWhile Char.isWhitespace
    if ws2.isEmpty || r3.isEmpty || r3.contains '\n' then none else some r3
  else none

/-- Lazy name capture of the `called` regex: extend the (nonempty,
comma- and newline-free) name one character at a time, at each point
first trying the description tail, otherwise ending at the end of
input. -/
def calledTail (acc : List Char) : List Char → Option (List Char × Option (List Char))
  | [] => if acc.isEmpty then none else some (acc.reverse, none)
  | c :: cs =>
    match (if !acc.isEmpty && c.isWhitespace then tryDescAt (c :: cs) else none) with
    | some desc => some (acc.reverse, some desc)
    | none =>
      if c = ',' || c = '\n' then none
      else calledTail (c :: acc) cs

/-- Leftmost match of
`/called\s+([^,\n]+?)(?:\s+description\s+(.+))?$/i`: scan for `called`
followed by whitespace, then capture name and optional description. -/
def findCalled : List Char → Option (List Char × Option (List Char))
  | [] => none
  | c :: cs =>
    (if isPrefixCI "called".data (c :: cs) then
      (let rest := (c :: cs).drop 6
       if (rest.takeWhile Char.isWhitespace).isEmpty then none
       else calledTail [] (rest.dropWhile Char.isWhitespace))
     else none).orElse (fun _ => findCalled cs)

/-- Leftmost capture of `/key\s*([^,\n]+)/i`-shaped patterns
(`name:` / `description:`): the nonempty stretch after the key up to the
first comma, newline, or end. -/
def scanKeyCapture (key : List Char) : List Char → Option (List Char)
  | [] => none
  | c :: cs =>
    (if isPrefixCI key (c :: cs) then
      (let s := ((c :: cs).drop key.length).takeWhile
         (fun ch => !(ch = ',' || ch = '\n'))
       if s.isEmpty then none else some s)
     else none).orElse (fun _ => scanKeyCapture key cs)

/-- Outcome of the ordered parsing cascade of
`handleNFTDetailsAfterUpload`: captured fields (possibly with empty
name), or one of the two early-return re-prompts. -/
inductive NFTReplyOutcome where
  | fields (name description : String)
  | needNameToProceed
  | needNameSkip
deriving DecidableEq

/-- The ordered free-text parsing cascade of
`handleNFTDetailsAfterUpload`. -/
def parseNFTReply (userInput : String) : NFTReplyOutcome :=
  let low := jsToLower userInput
  if strIncludes low "create" && strIncludes low "nft" then
    match findCalled userInput.data with
    | some (n, d?) =>
      let name := jsTrim ⟨n⟩
      let desc0 : String := match d? with
        | some d => jsTrim ⟨d⟩
        | none => ""
      .fields name (if jsToLower desc0 = "nothing" then "" else desc0)
    | none => .fields "" ""
  else if (scanKeyCapture "name:".data userInput.data).isSome then
    let name := ((scanKeyCapture "name:".data userInput.data).map
      (fun l => jsTrim ⟨l⟩)).getD ""
    let desc := ((scanKeyCapture "description:".data userInput.data).map
      (fun l => jsTrim ⟨l⟩)).getD ""
    .fields name desc
  else if strIncludes low "confirm" || strIncludes low "mint" ||
      strIncludes low "proceed" then
    .needNameToProceed
  else if strIncludes low "skip" || strIncludes low "no description" ||
      low = "no" then
    .needNameSkip
  else if jsLength userInput < 50 && !strIncludes userInput "," then
    .fields (jsTrim userInput) ""
  else .fields "" ""

example : parseNFTReply "Call it Dawn" = .fields "Call it Dawn" "" := by decide
example : parseNFTReply "create a nft called hormaz description nothing" =
    .fields "hormaz" "" := by decide
example : parseNFTReply "Name: My Art, Description: Beautiful digital artwork" =
    .fields "My Art" "Beautiful digital artwork" := by decide
example : parseNFTReply "skip" = .needNameSkip := by decide
example : parseNFTReply "confirm" = .needNameToProceed := by decide

/-- The fixed placeholder description substituted for an empty
description. -/
def placeholderDescription : String := "NFT created with opBNB AI Assistant"

/-- Re-prompt when the user tries to proceed without a name. -/
def needNameToProceedText : String :=
  "I need at least a name for your NFT. Please tell me what to call it, like: \"Name it Digital Art\""

/-- Re-prompt when the user skips the description with no name captured. -/
def needNameSkipText : String :=
  "What would you like to name your NFT? For example: \"Call it My Artwork\""

/-- Re-prompt when the cascade captured no name. -/
def needNameText : String :=
  "I need a name for your NFT. Please say something like: \"Name it Hormaz\" or \"Call it Digital Art\""

/-- Message appended when composing the NFT confirmation throws. -/
def nftErrorText : String := "Error processing NFT details. Please try again."

/-- The synthesized `mint_nft` action literal of `AIChat.tsx`. -/
def mkNftAction (name description imageUrl : Json) : Json :=
  .obj [("action", .str "mint_nft"), ("confidence", .num ((95 : Rat) / 100)),
        ("details", .obj [("name", name), ("description", description),
                          ("imageUrl", imageUrl), ("attributes", .arr [])]),
        ("missingFields", .arr []), ("isComplete", .jbool true)]

/-- `handleNFTDetailsAfterUpload`: parse the free-text reply; with no
captured name, re-prompt and change nothing else; with a name,
synthesize the complete `mint_nft` action, present the confirmation and
enter the awaiting-confirmation state. -/
def handleNFTDetailsAfterUpload (env : Env) (st : ChatState) (userInput : String) :
    ChatState :=
  match st.uploadedImage with
  | none => st
  | some img =>
    match parseNFTReply userInput with
    | .needNameToProceed => pushAi env st needNameToProceedText
    | .needNameSkip => pushAi env st needNameSkipText
    | .fields name desc =>
      if name = "" then pushAi env st needNameText
      else
        let nftAction := mkNftAction (.str name)
          (.str (if desc = "" then placeholderDescription else desc)) (.str img.1)
        match env.genConfirm nftAction with
        | .ok cm =>
          { st with
            conv := { st.conv with
              messages := st.conv.messages ++ [mkMsg env .ai cm]
              pendingAction := some { action := nftAction, messageId := env.freshId,
                                      isWaitingForConfirmation := true } }
            isWaitingForNFTDetails := false }
        | .error _ => pushAi env st nftErrorText

/-- Upload-success message shown when stored details let the flow jump
straight to confirmation. -/
def uploadSuccessContent (fileName cm : String) : String :=
  "🎉 **Image uploaded successfully to BNB Greenfield!**\n\nYour image \"" ++ fileName ++
    "\" has been stored on the decentralized network.\n\n" ++ cm

/-- Upload-success message shown when composing the confirmation threw. -/
def uploadConfirmErrContent (fileName : String) : String :=
  "🎉 **Image uploaded successfully!** \n\nYour image \"" ++ fileName ++
    "\" has been stored on BNB Greenfield. There was an error generating the confirmation. Please try again."

/-- Upload-success message soliciting name and description. -/
def askDetailsContent : String :=
  "🎉 **Image uploaded successfully to BNB Greenfield!**\n\nYour image has been stored on the decentralized network. Now I need a few more details to mint your NFT:\n\n📝 **Please provide:**\n1. **NFT Name** - What should your NFT be called?\n2. **Description** - Tell me about your NFT (optional)\n\nYou can provide both in one message like: \"Name: My Art, Description: Beautiful digital artwork\""

/-- The no-stored-details branch of `handleUploadComplete`: enter the
waiting-for-details sub-state and ask. -/
def uploadAskBranch (env : Env) (st : ChatState) (url fileName : String) : ChatState :=
  { st with
    isWaitingForNFTDetails := true
    conv := { st.conv with messages := st.conv.messages ++
      [{ mkMsg env .ai askDetailsContent with uploadedImage := some (url, fileName) }] } }

/-- `handleUploadComplete`: record the uploaded image; when previously
captured details hold a truthy name or description, synthesize the
`mint_nft` action at once (name defaulting to `'Untitled NFT'`,
description to the fixed placeholder) and enter awaiting-confirmation;
otherwise ask for details. -/
def handleUploadComplete (env : Env) (st : ChatState) (url fileName : String) :
    ChatState :=
  let st1 := { st with uploadedImage := some (url, fileName) }
  match st1.pendingNFTDetails with
  | some pd =>
    if truthyOpt pd.name || truthyOpt pd.description then
      let nameJ : Json := match pd.name with
        | some v => if v.truthy then v else .str "Untitled NFT"
        | none => .str "Untitled NFT"
      let descJ : Json := match pd.description with
        | some v => if v.truthy then v else .str placeholderDescription
        | none => .str placeholderDescription
      let nftAction := mkNftAction nameJ descJ (.str url)
      match env.genConfirm nftAction with
      | .ok cm =>
        { st1 with
          conv := { st1.conv with
            messages := st1.conv.messages ++
              [{ mkMsg env .ai (uploadSuccessContent fileName cm) with
                  uploadedImage := some (url, fileName) }]
            pendingAction := some { action := nftAction, messageId := env.freshId,
                                    isWaitingForConfirmation := true } }
          pendingNFTDetails := none }
      | .error _ =>
        { st1 with conv := { st1.conv with messages := st1.conv.messages ++
            [{ mkMsg env .ai (uploadConfirmErrContent fileName) with
                uploadedImage := some (url, fileName) }] } }
    else uploadAskBranch env st1 url fileName
  | none => uploadAskBranch env st1 url fileName

/-- Message appended when composing a confirmation throws in the regular
Gemini path. -/
def confirmGenErrorText : String := "Error generating confirmation. Please try again."

/-- The regular (non-upload) tail of the Gemini path of
`handleSendMessage`: append the assistant reply, then on a complete
action requiring confirmation compose and present the confirmation and
set the pending action. -/
def geminiRegular (env : Env) (st : ChatState) (result : AIResult) : ChatState :=
  let stA := { st with conv := { st.conv with messages := st.conv.messages ++
      [{ mkMsg env .ai result.response.display with
          action := result.action
          requiresConfirmation := some result.requiresConfirmation }] } }
  match result.action with
  | some a =>
    if truthyOpt (a.getField "isComplete") && result.requiresConfirmation then
      match env.genConfirm a with
      | .ok cm =>
        { stA with conv := { stA.conv with
            messages := stA.conv.messages ++ [mkMsg env .ai cm]
            pendingAction := some { action := a, messageId := env.freshId,
                                    isWaitingForConfirmation := true } } }
      | .error _ => pushAi env stA confirmGenErrorText
    else stA
  | none => stA

/-- The Gemini path of `handleSendMessage`: run the oracle round-trip,
divert a complete `upload_nft` action to the upload control (capturing
its details into `pendingNFTDetails` when truthy), otherwise continue
with the regular tail. -/
def geminiTurn (env : Env) (jp : String → Option Json) (oracle : Except Unit String)
    (st : ChatState) : ChatState :=
  let result := processUserInput jp oracle
  match result.action with
  | some a =>
    if isStrV (a.getField "action") "upload_nft" && truthyOpt (a.getField "isComplete")
        && result.requiresConfirmation then
      let capturedDetails : Option NFTDetailsPending :=
        some ⟨(a.getField "details").bind (·.getField "name"),
              (a.getField "details").bind (·.getField "description")⟩
      let st1 :=
        if truthyOpt (a.getField "details") then
          { st with pendingNFTDetails := capturedDetails }
        else st
      { st1 with conv := { st1.conv with messages := st1.conv.messages ++
          [{ mkMsg env .ai result.response.display with
              action := some a
              showUpload := some true
              requiresConfirmation := some false }] } }
    else geminiRegular env st result
  | none => geminiRegular env st result

/-- Oracle/executor call counts of one `handleSendMessage` turn. -/
structure TurnStats where
  oracleCalls : Nat
  executorCalls : Nat

/-- `handleSendMessage`: ignore empty input or a busy pipeline, append
the user message, then route: a waiting pending action captures the
reply as a confirmation signal, the waiting-for-NFT-details sub-state
captures it as detail text, and only otherwise does the text reach the
oracle. -/
def handleSendMessage (env : Env) (jp : String → Option Json)
    (oracle : Except Unit String) (st : ChatState) (inputValue : String) :
    ChatState × TurnStats :=
  if jsTrim inputValue = "" || st.conv.isProcessing then (st, ⟨0, 0⟩)
  else
    let userInput := jsTrim inputValue
    let st1 := { st with conv := { st.conv with
        messages := st.conv.messages ++ [mkMsg env .user userInput] } }
    if (match st1.conv.pendingAction with
        | some pa => pa.isWaitingForConfirmation
        | none => false) then
      let r := handleConfirmationResponse env st1 userInput
      (r.1, ⟨0, r.2⟩)
    else if st1.isWaitingForNFTDetails then
      (handleNFTDetailsAfterUpload env st1 userInput, ⟨0, 0⟩)
    else
      (geminiTurn env jp oracle st1, ⟨1, 0⟩)

/-! ### Helper lemmas on field lookup and update -/

theorem lookupField_map_set_gen (f : List (String × Json)) (k k' : String) (v : Json) :
    lookupField (f.map (fun p => if p.1 = k then (k, v) else p)) k' =
      (match lookupField f k' with
       | none => none
       | some w => if k' = k then some v else some w) := by
  induction f with
  | nil => rfl
  | cons p rest ih =>
    obtain ⟨k2, w⟩ := p
    simp only [List.map_cons]
    by_cases h2 : k2 = k
    · rw [show (if (k2, w).1 = k then (k, v) else (k2, w)) = (k, v) from if_pos h2]
      by_cases h3 : k2 = k'
      · subst h2; subst h3
        simp [lookupField]
      · subst h2
        simp [lookupField, h3, ih]
    · rw [show (if (k2, w).1 = k then (k, v) else (k2, w)) = (k2, w) from if_neg h2]
      by_cases h3 : k2 = k'
      · subst h3
        simp [lookupField, h2]
      · simp [lookupField, h3, ih]

theorem lookupField_append (f g : List (String × Json)) (k : String) :
    lookupField (f ++ g) k =
      (match lookupField f k with
       | some w => some w
       | none => lookupField g k) := by
  induction f with
  | nil => simp [lookupField]
  | cons p rest ih =>
    obtain ⟨k2, w⟩ := p
    by_cases hk : k2 = k <;> simp [lookupField, hk, ih]

theorem lookupField_setFields_self (f : List (String × Json)) (k : String) (v : Json) :
    lookupField (setFields f k v) k = some v := by
  unfold setFields
  split
  next h =>
    rw [lookupField_map_set_gen]
    cases hl : lookupField f k with
    | none => rw [hl] at h; simp at h
    | some w => simp
  next h =>
    rw [lookupField_append]
    cases hl : lookupField f k with
    | some w => rw [hl] at h; simp at h
    | none => simp [lookupField]

theorem lookupField_setFields_ne (f : List (String × Json)) (k k' : String) (v : Json)
    (h : k' ≠ k) :
    lookupField (setFields f k v) k' = lookupField f k' := by
  unfold setFields
  split
  next _ =>
    rw [lookupField_map_set_gen]
    cases hl : lookupField f k' with
    | none => rfl
    | some w => simp [h]
  next _ =>
    rw [lookupField_append]
    cases hl : lookupField f k' with
    | some w => simp
    | none => simp [lookupField, Ne.symm h]

/-! ### Helper lemmas on `confirmAction` -/

theorem confirmAction_none (env : Env) (st : ConversationState)
    (h : st.pendingAction = none) : confirmAction env st = (st, 0) := by
  simp [confirmAction, h]

theorem confirmAction_some (env : Env) (st : ConversationState) (pa : PendingAction)
    (h : st.pendingAction = some pa) :
    (confirmAction env st).1.pendingAction = none ∧
    (confirmAction env st).1.isProcessing = false ∧
    (confirmAction env st).2 ≤ 1 := by
  cases hw : env.wallet with
  | none => simp [confirmAction, h, hw]
  | some key =>
    by_cases hk : ((pa.action.getField "action").bind Json.asStr? = some "create_token" ∨
        (pa.action.getField "action").bind Json.asStr? = some "mint_nft" ∨
        (pa.action.getField "action").bind Json.asStr? = some "send_transaction")
    · cases hr : env.exec (((pa.action.getField "action").bind Json.asStr?).getD "")
          (pa.action.getField "details") with
      | ok s => simp [confirmAction, h, hw, hk, hr]
      | fail e => simp [confirmAction, h, hw, hk, hr]
      | threw m => simp [confirmAction, h, hw, hk, hr]
    · simp [confirmAction, h, hw, hk]

/-! ### Concrete fixtures used by witnesses and counterexamples -/

/-- A concrete environment whose collaborators all succeed. -/
def envA : Env :=
  { wallet := some "decrypted-key", walletAddress := "0xME",
    exec := fun _ _ => .ok { hash := "0xhash" },
    genConfirm := fun _ => .ok "Should I proceed? (Yes/No)",
    freshId := "m1", now := 1700000000000 }

/-- A concrete complete `send_transaction` action. -/
def sendActionA : Json :=
  .obj [("action", .str "send_transaction"), ("confidence", .num 1),
        ("details", .obj [("recipient", .str "0xabc"), ("amount", .str "2"),
                          ("token", .str "BNB")]),
        ("missingFields", .arr []), ("isComplete", .jbool true)]

/-- A concrete pending action awaiting confirmation. -/
def pendingA : PendingAction :=
  { action := sendActionA, messageId := "m0", isWaitingForConfirmation := true }

/-- A concrete store state holding `pendingA`. -/
def stA : ConversationState :=
  { messages := [], pendingAction := some pendingA, isProcessing := false }

/-- A concrete chat state holding `pendingA`. -/
def chatA : ChatState :=
  { conv := stA, uploadedImage := none, isWaitingForNFTDetails := false,
    pendingNFTDetails := none }

/-- C2: the blockchain-submission dispatch runs at most once per
`PendingAction`: `confirmAction` with no pending action changes nothing
and submits nothing; with a pending action, every outcome (success,
reported failure, thrown exception, wallet unavailable, unsupported
kind) ends with the pending action cleared and at most one submission,
so a second `confirmAction` afterwards changes nothing and submits
nothing. -/
theorem confirmAction_at_most_once (env env2 : Env) (st : ConversationState) :
    (st.pendingAction = none → confirmAction env st = (st, 0)) ∧
    (∀ pa, st.pendingAction = some pa →
      (confirmAction env st).1.pendingAction = none ∧
      (confirmAction env st).2 ≤ 1 ∧
      confirmAction env2 (confirmAction env st).1 = ((confirmAction env st).1, 0)) := by
  refine ⟨fun h => confirmAction_none env st h, fun pa h => ?_⟩
  obtain ⟨h1, _, h3⟩ := confirmAction_some env st pa h
  exact ⟨h1, h3, confirmAction_none env2 _ h1⟩

/-- Witness for C2 at a concrete state with a pending action. -/
theorem confirmAction_at_most_once_witness :
    (confirmAction envA stA).1.pendingAction = none ∧
    (confirmAction envA stA).2 ≤ 1 ∧
    confirmAction envA (confirmAction envA stA).1 = ((confirmAction envA stA).1, 0) :=
  (confirmAction_at_most_once envA envA stA).2 pendingA rfl

/-! ### The confirmation gate (C1) -/

theorem gateSets_disjoint (n : String) :
    ¬(affirmativeReplies.contains n = true ∧ negativeReplies.contains n = true) := by
  rintro ⟨ha, hb⟩
  have ha' : n ∈ affirmativeReplies := by
    simpa using ha
  have hb' : n ∈ negativeReplies := by
    simpa using hb
  fin_cases ha' <;> simp_all [negativeReplies]

theorem handleSendMessage_gate_eq (env : Env) (jp : String → Option Json)
    (oracle : Except Unit String) (st : ChatState) (input : String) (pa : PendingAction)
    (hpa : st.conv.pendingAction = some pa)
    (hwait : pa.isWaitingForConfirmation = true)
    (hinput : jsTrim input ≠ "")
    (hproc : st.conv.isProcessing = false) :
    handleSendMessage env jp oracle st input =
      ((handleConfirmationResponse env
          { st with conv := { st.conv with
              messages := st.conv.messages ++ [mkMsg env .user (jsTrim input)] } }
          (jsTrim input)).1,
        ⟨0, (handleConfirmationResponse env
          { st with conv := { st.conv with
              messages := st.conv.messages ++ [mkMsg env .user (jsTrim input)] } }
          (jsTrim input)).2⟩) := by
  simp only [handleSendMessage, hpa, hwait]
  rw [if_neg (by simp [hinput, hproc])]
  simp

theorem handleConfirmationResponse_affirmative (env : Env) (st : ChatState)
    (input : String)
    (h : affirmativeReplies.contains (jsTrim (jsToLower input)) = true) :
    handleConfirmationResponse env st input =
      ({ st with conv := { (confirmAction env { st.conv with isProcessing := true }).1
                            with isProcessing := false } }, 1) := by
  have h' : jsTrim (jsToLower input) ∈ affirmativeReplies := by simpa using h
  simp [handleConfirmationResponse, h']

theorem handleConfirmationResponse_negative (env : Env) (st : ChatState)
    (input : String)
    (ha : affirmativeReplies.contains (jsTrim (jsToLower input)) = false)
    (hb : negativeReplies.contains (jsTrim (jsToLower input)) = true) :
    handleConfirmationResponse env st input =
      ({ st with conv := { st.conv with
          pendingAction := none
          messages := st.conv.messages ++ [mkMsg env .ai cancellationText] } }, 0) := by
  have ha' : jsTrim (jsToLower input) ∉ affirmativeReplies := by simpa using ha
  have hb' : jsTrim (jsToLower input) ∈ negativeReplies := by simpa using hb
  simp [handleConfirmationResponse, ha', hb']

theorem handleConfirmationResponse_unclear (env : Env) (st : ChatState)
    (input : String)
    (ha : affirmativeReplies.contains (jsTrim (jsToLower input)) = false)
    (hb : negativeReplies.contains (jsTrim (jsToLower input)) = false) :
    handleConfirmationResponse env st input =
      ({ st with conv := { st.conv with
          messages := st.conv.messages ++ [mkMsg env .ai unclearText] } }, 0) := by
  have ha' : jsTrim (jsToLower input) ∉ affirmativeReplies := by simpa using ha
  have hb' : jsTrim (jsToLower input) ∉ negativeReplies := by simpa using hb
  simp [handleConfirmationResponse, ha', hb']

/-- C1: while a pending action awaits confirmation, the next user message
is interpreted directly and never reaches the oracle (zero oracle
calls): an affirmative reply (trimmed, lowercased, in the fixed
affirmative set) invokes the executor exactly once and ends with the
pending action cleared; a negative reply clears the pending action with
zero executor calls and appends the cancellation message; any other
reply leaves the pending action unchanged with zero executor calls and
appends the strict Yes/No re-prompt. -/
theorem gate_confirmation_reply (env : Env) (jp : String → Option Json)
    (oracle : Except Unit String) (st : ChatState) (input : String) (pa : PendingAction)
    (hpa : st.conv.pendingAction = some pa)
    (hwait : pa.isWaitingForConfirmation = true)
    (hinput : jsTrim input ≠ "")
    (hproc : st.conv.isProcessing = false) :
    (handleSendMessage env jp oracle st input).2.oracleCalls = 0 ∧
    (affirmativeReplies.contains (jsTrim (jsToLower (jsTrim input))) = true →
      (handleSendMessage env jp oracle st input).2.executorCalls = 1 ∧
      (handleSendMessage env jp oracle st input).1.conv.pendingAction = none) ∧
    (negativeReplies.contains (jsTrim (jsToLower (jsTrim input))) = true →
      (handleSendMessage env jp oracle st input).2.executorCalls = 0 ∧
      (handleSendMessage env jp oracle st input).1.conv.pendingAction = none ∧
      (handleSendMessage env jp oracle st input).1.conv.messages =
        st.conv.messages ++ [mkMsg env .user (jsTrim input), mkMsg env .ai cancellationText]) ∧
    (affirmativeReplies.contains (jsTrim (jsToLower (jsTrim input))) = false →
      negativeReplies.contains (jsTrim (jsToLower (jsTrim input))) = false →
      (handleSendMessage env jp oracle st input).2.executorCalls = 0 ∧
      (handleSendMessage env jp oracle st input).1.conv.pendingAction = some pa ∧
      (handleSendMessage env jp oracle st input).1.conv.messages =
        st.conv.messages ++ [mkMsg env .user (jsTrim input), mkMsg env .ai unclearText]) := by
  rw [handleSendMessage_gate_eq env jp oracle st input pa hpa hwait hinput hproc]
  set st1 : ChatState := { st with conv := { st.conv with
      messages := st.conv.messages ++ [mkMsg env .user (jsTrim input)] } } with hst1
  refine ⟨rfl, ?_, ?_, ?_⟩
  · intro ha
    rw [handleConfirmationResponse_affirmative env st1 (jsTrim input) ha]
    refine ⟨rfl, ?_⟩
    have hS : ({ st1.conv with isProcessing := true } : ConversationState).pendingAction =
        some pa := by
      simp [hst1, hpa]
    simpa using (confirmAction_some env _ pa hS).1
  · intro hb
    have ha : affirmativeReplies.contains (jsTrim (jsToLower (jsTrim input))) = false := by
      by_contra hc
      exact gateSets_disjoint _ ⟨by simpa using hc, hb⟩
    rw [handleConfirmationResponse_negative env st1 (jsTrim input) ha hb]
    refine ⟨rfl, rfl, ?_⟩
    simp [hst1]
  · intro ha hb
    rw [handleConfirmationResponse_unclear env st1 (jsTrim input) ha hb]
    refine ⟨rfl, ?_, ?_⟩
    · simp [hst1, hpa]
    · simp [hst1]

/-- Witness for C1: the concrete reply `"Yes"` on a waiting pending
action executes once and clears it. -/
theorem gate_confirmation_reply_witness :
    (handleSendMessage envA (fun _ => none) (Except.error ()) chatA "Yes").2.executorCalls = 1 ∧
    (handleSendMessage envA (fun _ => none) (Except.error ()) chatA "Yes").1.conv.pendingAction =
      none :=
  (gate_confirmation_reply envA (fun _ => none) (Except.error ()) chatA "Yes" pendingA
    rfl rfl (by decide) rfl).2.1 (by decide)

/-! ### IntentExtractor error absorption (C4) -/

/-- C4: the IntentExtractor absorbs every failure: a thrown oracle call
yields the fixed apologetic reply with no action and no confirmation
requirement; a response with no fenced JSON block, or whose fenced block
fails to parse as JSON, is returned whole as the reply text with no
action and no confirmation requirement. -/
theorem intentExtractor_error_handling (jp : String → Option Json) (raw s : String) :
    processUserInput jp (Except.error ()) = ⟨.str apologyText, none, false⟩ ∧
    (extractFencedJson raw = none →
      parseAIResponse jp raw = ⟨.str raw, none, false⟩ ∧
      processUserInput jp (Except.ok raw) = ⟨.str raw, none, false⟩) ∧
    (extractFencedJson raw = some s → jp s = none →
      parseAIResponse jp raw = ⟨.str raw, none, false⟩ ∧
      processUserInput jp (Except.ok raw) = ⟨.str raw, none, false⟩) := by
  refine ⟨rfl, ?_, ?_⟩
  · intro h
    constructor <;> simp [parseAIResponse, processUserInput, h]
  · intro h1 h2
    constructor <;> simp [parseAIResponse, processUserInput, h1, h2]

/-- Witness for C4: a concrete unfenced oracle response comes back whole
with no action. -/
theorem intentExtractor_error_handling_witness :
    parseAIResponse (fun _ => none) "Hello there" = ⟨.str "Hello there", none, false⟩ ∧
    processUserInput (fun _ => none) (Except.ok "Hello there") =
      ⟨.str "Hello there", none, false⟩ :=
  (intentExtractor_error_handling (fun _ => none) "Hello there" "").2.1 rfl

/-! ### Conversation persistence round-trip (C9) -/

theorem map_restore_serialize (toISO : Int → String) (parseDate : String → Int)
    (msgs : List ConversationMessage)
    (hcodec : ∀ m ∈ msgs, parseDate (toISO m.timestamp) = m.timestamp) :
    msgs.map (fun m => restoreMessage parseDate (serializeMessage toISO m)) = msgs := by
  induction msgs with
  | nil => rfl
  | cons m rest ih =>
    simp only [List.map_cons]
    rw [ih (fun x hx => hcodec x (List.mem_cons_of_mem _ hx))]
    have ht := hcodec m (List.mem_cons_self _ _)
    simp [restoreMessage, serializeMessage, ht]

/-- C9: restoring a serialized conversation of at most 50 messages
reproduces it exactly — order, content, and every other field — and each
timestamp comes back to the same value whenever the runtime date codec
(`Date.toISOString` / `new Date`) round-trips the timestamps involved,
which it does within the Date value's millisecond precision. -/
theorem conversation_roundtrip (toISO : Int → String) (parseDate : String → Int)
    (msgs : List ConversationMessage)
    (hlen : msgs.length ≤ 50)
    (hcodec : ∀ m ∈ msgs, parseDate (toISO m.timestamp) = m.timestamp) :
    mergeMessages parseDate (partializeMessages toISO msgs) = msgs := by
  unfold mergeMessages partializeMessages
  rw [Nat.sub_eq_zero_of_le hlen, List.drop_zero, List.map_map]
  exact map_restore_serialize toISO parseDate msgs hcodec

/-- Two concrete messages for the C9 witness. -/
def msgsW : List ConversationMessage :=
  [{ id := "welcome", type := .ai, content := "Hello!", timestamp := 0 },
   { id := "u1", type := .user, content := "Create a token", timestamp := 0,
     requiresConfirmation := some false }]

/-- Witness for C9 at a concrete conversation and a concrete codec. -/
theorem conversation_roundtrip_witness :
    mergeMessages (fun _ => 0)
      (partializeMessages (fun _ => "1970-01-01T00:00:00.000Z") msgsW) = msgsW :=
  conversation_roundtrip (fun _ => "1970-01-01T00:00:00.000Z") (fun _ => 0) msgsW
    (by decide)
    (by intro m hm; fin_cases hm <;> rfl)

/-! ### Pipeline reduction lemmas for per-kind post-processing -/

theorem jsNameOrEmpty_str (nm : String) :
    jsNameOrEmpty (some (Json.str nm)) = some nm := by
  by_cases h : nm = ""
  · subst h; simp [jsNameOrEmpty, Json.truthy]
  · simp [jsNameOrEmpty, Json.truthy, Json.asStr?, h]

theorem processParsed_createToken (raw : String)
    (jf af : List (String × Json)) (act2 : Json) (g : List (String × Json))
    (hact : lookupField jf "action" = some (.obj af))
    (hkind : lookupField af "action" = some (.str "create_token"))
    (happ : applyTokenDefaults (.obj af) = some act2)
    (hobj : act2 = .obj g) :
    processParsed raw (.obj jf) = some
      { response := (match lookupField (setFields jf "action" act2) "response" with
                     | some v => if v.truthy then v else .str raw
                     | none => .str raw),
        action := some act2,
        requiresConfirmation :=
          truthyOpt (lookupField (setFields jf "action" act2) "requiresConfirmation") } := by
  simp only [processParsed, Json.getField, hact, hkind, Option.bind, Json.asStr?,
    happ, Option.map_some, Json.setField]
  simp [lookupField_setFields_self, hobj, Json.truthy]

theorem applyTokenDefaults_allMissing (af d : List (String × Json)) (nm : String)
    (hdet : lookupField af "details" = some (.obj d))
    (hdec : truthyOpt (lookupField d "decimals") = false)
    (hsup : truthyOpt (lookupField d "totalSupply") = false)
    (hsym : truthyOpt (lookupField d "symbol") = false)
    (hname : lookupField d "name" = some (.str nm))
    (hnm : nm ≠ "") :
    applyTokenDefaults (.obj af) = some (.obj (setFields af "details" (.obj
      (setFields (setFields (setFields d "decimals" (.str "18"))
        "totalSupply" (.str (generateSmartTotalSupply nm)))
        "symbol" (.str (generateTokenSymbol nm)))))) := by
  have h1 : lookupField (setFields d "decimals" (.str "18")) "totalSupply" =
      lookupField d "totalSupply" := lookupField_setFields_ne _ _ _ _ (by decide)
  have h2 : lookupField (setFields d "decimals" (.str "18")) "name" =
      some (.str nm) := by
    rw [lookupField_setFields_ne _ _ _ _ (by decide)]
    exact hname
  have h3 : lookupField (setFields (setFields d "decimals" (.str "18"))
      "totalSupply" (.str (generateSmartTotalSupply nm))) "symbol" =
      lookupField d "symbol" := by
    rw [lookupField_setFields_ne _ _ _ _ (by decide),
      lookupField_setFields_ne _ _ _ _ (by decide)]
  have h4 : lookupField (setFields (setFields d "decimals" (.str "18"))
      "totalSupply" (.str (generateSmartTotalSupply nm))) "name" =
      some (.str nm) := by
    rw [lookupField_setFields_ne _ _ _ _ (by decide)]
    exact h2
  simp only [applyTokenDefaults, Json.getField, hdet, hdec, h1, hsup, h2,
    jsNameOrEmpty_str, Option.map_some', Bool.false_eq_true, if_false]
  simp only [h3, h4]
  simp only [hsym, Bool.not_false, Bool.true_and]
  simp only [truthyOpt, Json.truthy, decide_eq_true_eq]
  rw [if_pos hnm]
  simp [Json.setField]

theorem applyTokenDefaults_supply (af d : List (String × Json)) (nm : String)
    (hdet : lookupField af "details" = some (.obj d))
    (hsup : truthyOpt (lookupField d "totalSupply") = false)
    (hname : lookupField d "name" = some (.str nm)) :
    ∃ d3 : List (String × Json),
      applyTokenDefaults (.obj af) = some (.obj (setFields af "details" (.obj d3))) ∧
      lookupField d3 "totalSupply" = some (.str (generateSmartTotalSupply nm)) := by
  cases hdec : truthyOpt (lookupField d "decimals") with
  | true =>
    have h2name : lookupField (setFields d "totalSupply"
        (.str (generateSmartTotalSupply nm))) "name" = some (.str nm) := by
      rw [lookupField_setFields_ne _ _ _ _ (by decide)]
      exact hname
    have h2supply := lookupField_setFields_self d "totalSupply"
      (.str (generateSmartTotalSupply nm))
    simp only [applyTokenDefaults, Json.getField, hdet, hdec, eq_self_iff_true,
      if_true, hsup, Bool.false_eq_true, if_false, hname, jsNameOrEmpty_str,
      Option.map_some']
    by_cases hcond : (!truthyOpt (lookupField (setFields d "totalSupply"
          (.str (generateSmartTotalSupply nm))) "symbol") &&
        truthyOpt (lookupField (setFields d "totalSupply"
          (.str (generateSmartTotalSupply nm))) "name")) = true
    · refine ⟨setFields (setFields d "totalSupply" (.str (generateSmartTotalSupply nm)))
        "symbol" (.str (generateTokenSymbol nm)), ?_, ?_⟩
      · rw [if_pos hcond, h2name]
        simp [Json.setField]
      · rw [lookupField_setFields_ne _ _ _ _ (by decide)]
        exact h2supply
    · refine ⟨setFields d "totalSupply" (.str (generateSmartTotalSupply nm)), ?_,
        h2supply⟩
      rw [if_neg hcond]
      simp [Json.setField]
  | false =>
    have h1sup : lookupField (setFields d "decimals" (.str "18")) "totalSupply" =
        lookupField d "totalSupply" := lookupField_setFields_ne _ _ _ _ (by decide)
    have h1name : lookupField (setFields d "decimals" (.str "18")) "name" =
        some (.str nm) := by
      rw [lookupField_setFields_ne _ _ _ _ (by decide)]
      exact hname
    have h2name : lookupField (setFields (setFields d "decimals" (.str "18"))
        "totalSupply" (.str (generateSmartTotalSupply nm))) "name" =
        some (.str nm) := by
      rw [lookupField_setFields_ne _ _ _ _ (by decide)]
      exact h1name
    have h2supply := lookupField_setFields_self (setFields d "decimals" (.str "18"))
      "totalSupply" (.str (generateSmartTotalSupply nm))
    simp only [applyTokenDefaults, Json.getField, hdet, hdec, Bool.false_eq_true,
      if_false, h1sup, hsup, h1name, jsNameOrEmpty_str, Option.map_some']
    by_cases hcond : (!truthyOpt (lookupField (setFields (setFields d "decimals"
          (.str "18")) "totalSupply" (.str (generateSmartTotalSupply nm))) "symbol") &&
        truthyOpt (lookupField (setFields (setFields d "decimals" (.str "18"))
          "totalSupply" (.str (generateSmartTotalSupply nm))) "name")) = true
    · refine ⟨setFields (setFields (setFields d "decimals" (.str "18"))
        "totalSupply" (.str (generateSmartTotalSupply nm)))
        "symbol" (.str (generateTokenSymbol nm)), ?_, ?_⟩
      · rw [if_pos hcond, h2name]
        simp [Json.setField]
      · rw [lookupField_setFields_ne _ _ _ _ (by decide)]
        exact h2supply
    · refine ⟨setFields (setFields d "decimals" (.str "18")) "totalSupply"
        (.str (generateSmartTotalSupply nm)), ?_, h2supply⟩
      rw [if_neg hcond]
      simp [Json.setField]

theorem parseAIResponse_createToken_supply (jp : String → Option Json) (raw s : String)
    (jf af d : List (String × Json)) (nm : String)
    (hx : extractFencedJson raw = some s)
    (hjp : jp s = some (.obj jf))
    (hact : lookupField jf "action" = some (.obj af))
    (hkind : lookupField af "action" = some (.str "create_token"))
    (hdet : lookupField af "details" = some (.obj d))
    (hsup : truthyOpt (lookupField d "totalSupply") = false)
    (hname : lookupField d "name" = some (.str nm)) :
    ∃ d3 : List (String × Json),
      (parseAIResponse jp raw).action = some (.obj (setFields af "details" (.obj d3))) ∧
      lookupField d3 "totalSupply" = some (.str (generateSmartTotalSupply nm)) := by
  obtain ⟨d3, happ, hd3⟩ := applyTokenDefaults_supply af d nm hdet hsup hname
  have hp := processParsed_createToken raw jf af _ _ hact hkind happ rfl
  refine ⟨d3, ?_, hd3⟩
  simp only [parseAIResponse, hx, hjp, hp]

/-- C8: for a parsed `create_token` action with a string name and no
truthy `totalSupply`, the parse boundary fills `totalSupply` with
`generateSmartTotalSupply` of the name, and that default follows the
keyword categories of the lowercased name in priority order:
gaming-flavored names yield 1,000,000,000; otherwise meme-flavored
names yield 1,000,000,000,000; otherwise governance-flavored names
yield 10,000,000; otherwise utility/platform-flavored names yield
100,000,000; otherwise stablecoin-flavored names yield 1,000,000; and
any other name yields 1,000,000. -/
theorem smart_supply_default (jp : String → Option Json) (raw s : String)
    (jf af d : List (String × Json)) (nm : String)
    (hx : extractFencedJson raw = some s)
    (hjp : jp s = some (.obj jf))
    (hact : lookupField jf "action" = some (.obj af))
    (hkind : lookupField af "action" = some (.str "create_token"))
    (hdet : lookupField af "details" = some (.obj d))
    (hsup : truthyOpt (lookupField d "totalSupply") = false)
    (hname : lookupField d "name" = some (.str nm)) :
    (∃ d3 : List (String × Json),
      (parseAIResponse jp raw).action = some (.obj (setFields af "details" (.obj d3))) ∧
      lookupField d3 "totalSupply" = some (.str (generateSmartTotalSupply nm))) ∧
    (hasGamingKw (jsToLower nm) = true →
      generateSmartTotalSupply nm = "1000000000") ∧
    (hasGamingKw (jsToLower nm) = false → hasMemeKw (jsToLower nm) = true →
      generateSmartTotalSupply nm = "1000000000000") ∧
    (hasGamingKw (jsToLower nm) = false → hasMemeKw (jsToLower nm) = false →
      hasGovernanceKw (jsToLower nm) = true →
      generateSmartTotalSupply nm = "10000000") ∧
    (hasGamingKw (jsToLower nm) = false → hasMemeKw (jsToLower nm) = false →
      hasGovernanceKw (jsToLower nm) = false → hasUtilityKw (jsToLower nm) = true →
      generateSmartTotalSupply nm = "100000000") ∧
    (hasGamingKw (jsToLower nm) = false → hasMemeKw (jsToLower nm) = false →
      hasGovernanceKw (jsToLower nm) = false → hasUtilityKw (jsToLower nm) = false →
      hasStablecoinKw (jsToLower nm) = true →
      generateSmartTotalSupply nm = "1000000") ∧
    (hasGamingKw (jsToLower nm) = false → hasMemeKw (jsToLower nm) = false →
      hasGovernanceKw (jsToLower nm) = false → hasUtilityKw (jsToLower nm) = false →
      hasStablecoinKw (jsToLower nm) = false →
      generateSmartTotalSupply nm = "1000000") := by
  refine ⟨parseAIResponse_createToken_supply jp raw s jf af d nm hx hjp hact hkind hdet
    hsup hname, ?_, ?_, ?_, ?_, ?_, ?_⟩
  · intro h1
    simp [generateSmartTotalSupply, h1]
  · intro h1 h2
    simp [generateSmartTotalSupply, h1, h2]
  · intro h1 h2 h3
    simp [generateSmartTotalSupply, h1, h2, h3]
  · intro h1 h2 h3 h4
    simp [generateSmartTotalSupply, h1, h2, h3, h4]
  · intro h1 h2 h3 h4 h5
    simp [generateSmartTotalSupply, h1, h2, h3, h4, h5]
  · intro h1 h2 h3 h4 h5
    simp [generateSmartTotalSupply, h1, h2, h3, h4, h5]

/-- Concrete oracle payload for the C8 witness: a `create_token` action
with a name and no total supply. -/
def tokenDetails8 : List (String × Json) := [("name", .str "Dragon Quest Token")]

/-- Concrete action object for the C8 witness. -/
def tokenAction8 : List (String × Json) :=
  [("action", .str "create_token"), ("confidence", .num 1),
   ("details", .obj tokenDetails8), ("missingFields", .arr []),
   ("isComplete", .jbool false)]

/-- Concrete parsed root object for the C8 witness. -/
def root8 : List (String × Json) :=
  [("response", .str "Creating your gaming token"), ("action", .obj tokenAction8),
   ("requiresConfirmation", .jbool false)]

/-- Concrete raw oracle text for the C8 witness. -/
def raw8 : String := "```json\nPAYLOAD8\n```"

/-- Concrete `JSON.parse` behavior for the C8 witness. -/
def jp8 : String → Option Json :=
  fun s => if s = "PAYLOAD8" then some (.obj root8) else none

/-- Witness for C8: the gaming-flavored name gets the 1-billion default
through the full parse pipeline. -/
theorem smart_supply_default_witness :
    (∃ d3 : List (String × Json),
      (parseAIResponse jp8 raw8).action =
        some (.obj (setFields tokenAction8 "details" (.obj d3))) ∧
      lookupField d3 "totalSupply" =
        some (.str (generateSmartTotalSupply "Dragon Quest Token"))) ∧
    generateSmartTotalSupply "Dragon Quest Token" = "1000000000" :=
  ⟨(smart_supply_default jp8 raw8 "PAYLOAD8" root8 tokenAction8 tokenDetails8
      "Dragon Quest Token" (by decide) rfl rfl rfl rfl (by decide) rfl).1,
   (smart_supply_default jp8 raw8 "PAYLOAD8" root8 tokenAction8 tokenDetails8
      "Dragon Quest Token" (by decide) rfl rfl rfl rfl (by decide) rfl).2.1 (by decide)⟩

/-! ### Symbol shape lemmas (C7) -/

theorem mem_wordsOfAux_ne_nil (l : List Char) :
    ∀ acc w, w ∈ wordsOfAux acc l → w ≠ [] := by
  induction l with
  | nil =>
    intro acc w hw
    simp only [wordsOfAux] at hw
    split at hw
    · simp at hw
    next h =>
      simp only [List.mem_singleton] at hw
      subst hw
      simp only [ne_eq, List.reverse_eq_nil_iff]
      exact h
  | cons c cs ih =>
    intro acc w hw
    simp only [wordsOfAux] at hw
    split at hw
    · split at hw
      · exact ih [] w hw
      next h =>
        rcases List.mem_cons.mp hw with h1 | h2
        · subst h1
          simp only [ne_eq, List.reverse_eq_nil_iff]
          exact h
        · exact ih [] w h2
    · exact ih (c :: acc) w hw

theorem mem_wordsOf_ne_nil (l : List Char) :
    ∀ w ∈ wordsOf l, w ≠ [] :=
  fun w hw => mem_wordsOfAux_ne_nil l [] w hw

theorem symbolFromWords_length (ws : List (List Char))
    (hne : ∀ w ∈ ws, w ≠ []) :
    1 ≤ (symbolFromWords ws).length ∧ (symbolFromWords ws).length ≤ 4 := by
  match ws with
  | [] => exact ⟨by decide, by decide⟩
  | [w] =>
    have h1 : w ≠ [] := hne w (by simp)
    have h2 : 1 ≤ w.length := List.length_pos.mpr h1
    simp only [symbolFromWords, String.length]
    split
    next h =>
      simp only [List.length_take, List.length_map] at *
      omega
    next h =>
      simp only [List.length_map, Nat.not_lt] at *
      omega
  | [w1, w2] =>
    have h1 : 1 ≤ w1.length := List.length_pos.mpr (hne w1 (by simp))
    have h2 : 1 ≤ w2.length := List.length_pos.mpr (hne w2 (by simp))
    simp only [symbolFromWords, String.length, List.length_take, List.length_append,
      List.length_map]
    omega
  | w1 :: w2 :: w3 :: rest =>
    simp only [symbolFromWords, String.length]
    have hlen : ((((w1 :: w2 :: w3 :: rest).map
        (fun w => Char.toUpper (w.headD 'x'))).take 4)).length =
        min 4 (3 + rest.length) := by
      simp [List.length_take, List.length_map]
      omega
    split
    next h =>
      rw [hlen] at h
      omega
    next h =>
      rw [hlen]
      omega

theorem generateTokenSymbol_length (name : String) :
    1 ≤ (generateTokenSymbol name).length ∧ (generateTokenSymbol name).length ≤ 4 :=
  symbolFromWords_length _ (mem_wordsOf_ne_nil _)

theorem generateTokenSymbol_fallback (name : String)
    (h : wordsOf (trimL (stripGenericAux name.data)) = []) :
    generateTokenSymbol name = "TKN" := by
  unfold generateTokenSymbol
  rw [h]
  rfl

/-- C7 (amended): for a parsed `create_token` action with a truthy string
name and absent symbol, totalSupply and decimals, the parse boundary
sets decimals to `'18'` and the symbol to `generateTokenSymbol` of the
name — a pure function of the name, so the same name always yields the
same symbol; the generated symbol always has between 1 and 4
characters (length at least 3 can fail for very short names); and a
name whose stripped form has no words left yields exactly `"TKN"`. -/
theorem token_defaulting (jp : String → Option Json) (raw s : String)
    (jf af d : List (String × Json)) (nm : String)
    (hx : extractFencedJson raw = some s)
    (hjp : jp s = some (.obj jf))
    (hact : lookupField jf "action" = some (.obj af))
    (hkind : lookupField af "action" = some (.str "create_token"))
    (hdet : lookupField af "details" = some (.obj d))
    (hdec : truthyOpt (lookupField d "decimals") = false)
    (hsup : truthyOpt (lookupField d "totalSupply") = false)
    (hsym : truthyOpt (lookupField d "symbol") = false)
    (hname : lookupField d "name" = some (.str nm))
    (hnm : nm ≠ "") :
    ∃ d3 : List (String × Json),
      (parseAIResponse jp raw).action = some (.obj (setFields af "details" (.obj d3))) ∧
      lookupField d3 "decimals" = some (.str "18") ∧
      lookupField d3 "symbol" = some (.str (generateTokenSymbol nm)) ∧
      1 ≤ (generateTokenSymbol nm).length ∧ (generateTokenSymbol nm).length ≤ 4 ∧
      (∀ t : String, wordsOf (trimL (stripGenericAux t.data)) = [] →
        generateTokenSymbol t = "TKN") := by
  have happ := applyTokenDefaults_allMissing af d nm hdet hdec hsup hsym hname hnm
  have hp := processParsed_createToken raw jf af _ _ hact hkind happ rfl
  refine ⟨setFields (setFields (setFields d "decimals" (.str "18")) "totalSupply"
      (.str (generateSmartTotalSupply nm))) "symbol" (.str (generateTokenSymbol nm)),
    ?_, ?_, ?_, (generateTokenSymbol_length nm).1,
    (generateTokenSymbol_length nm).2, fun t ht => generateTokenSymbol_fallback t ht⟩
  · simp only [parseAIResponse, hx, hjp, hp]
  · rw [lookupField_setFields_ne _ _ _ _ (by decide),
        lookupField_setFields_ne _ _ _ _ (by decide)]
    exact lookupField_setFields_self _ _ _
  · exact lookupField_setFields_self _ _ _

/-- Witness for C7's amended claim through the full pipeline. -/
theorem token_defaulting_witness :
    ∃ d3 : List (String × Json),
      (parseAIResponse jp8 raw8).action =
        some (.obj (setFields tokenAction8 "details" (.obj d3))) ∧
      lookupField d3 "decimals" = some (.str "18") ∧
      lookupField d3 "symbol" =
        some (.str (generateTokenSymbol "Dragon Quest Token")) ∧
      1 ≤ (generateTokenSymbol "Dragon Quest Token").length ∧
      (generateTokenSymbol "Dragon Quest Token").length ≤ 4 ∧
      (∀ t : String, wordsOf (trimL (stripGenericAux t.data)) = [] →
        generateTokenSymbol t = "TKN") :=
  token_defaulting jp8 raw8 "PAYLOAD8" root8 tokenAction8 tokenDetails8
    "Dragon Quest Token" (by decide) rfl rfl rfl rfl (by decide) (by decide)
    (by decide) rfl (by decide)

/-- Concrete oracle payload for the C7 counterexample: a `create_token`
action named `"Hi"` with decimals already set to `'9'` and no symbol. -/
def tokenDetails7 : List (String × Json) :=
  [("name", .str "Hi"), ("decimals", .str "9")]

/-- Concrete action object for the C7 counterexample. -/
def tokenAction7 : List (String × Json) :=
  [("action", .str "create_token"), ("confidence", .num 1),
   ("details", .obj tokenDetails7), ("missingFields", .arr []),
   ("isComplete", .jbool false)]

/-- Concrete parsed root object for the C7 counterexample. -/
def root7 : List (String × Json) :=
  [("response", .str "ok"), ("action", .obj tokenAction7),
   ("requiresConfirmation", .jbool false)]

/-- Concrete raw oracle text for the C7 counterexample. -/
def raw7 : String := "```json\nPAYLOAD7\n```"

/-- Concrete `JSON.parse` behavior for the C7 counterexample. -/
def jp7 : String → Option Json :=
  fun s => if s = "PAYLOAD7" then some (.obj root7) else none

/-- The details object the pipeline produces on the C7 counterexample. -/
def c7OutDetails : Option Json :=
  ((parseAIResponse jp7 raw7).action).bind (fun a => a.getField "details")

/-- Counterexample for C7 as stated: on the name `"Hi"` with decimals
pre-set to `'9'`, the DefaultingEngine neither forces decimals to 18
(it keeps `'9'`) nor produces a symbol of length at least 3 (it
produces `"HI"`, of length 2). -/
theorem token_defaulting_counterexample :
    ¬(c7OutDetails.bind (fun dj => dj.getField "decimals") = some (.str "18")) ∧
    ¬(∃ sym : String,
        c7OutDetails.bind (fun dj => dj.getField "symbol") = some (.str sym) ∧
        3 ≤ sym.length) := by
  constructor
  · intro h
    rw [show c7OutDetails.bind (fun dj => dj.getField "decimals") =
        some (.str "9") from rfl] at h
    simp at h
  · rintro ⟨sym, hs, hlen⟩
    rw [show c7OutDetails.bind (fun dj => dj.getField "symbol") =
        some (.str "HI") from rfl] at hs
    simp only [Option.some.injEq, Json.str.injEq] at hs
    subst hs
    exact absurd hlen (by decide)

/-! ### `send_transaction` validation (C3, C10) -/

/-- The missing-field list the `send_transaction` validation computes:
`recipient` and `amount` by truthiness, nothing else. -/
def sendMissing (d : List (String × Json)) : List String :=
  (if truthyOpt (lookupField d "recipient") then [] else ["recipient"]) ++
    (if truthyOpt (lookupField d "amount") then [] else ["amount"])

theorem sendMissing_isEmpty (d : List (String × Json)) :
    (sendMissing d).isEmpty =
      (truthyOpt (lookupField d "recipient") && truthyOpt (lookupField d "amount")) := by
  cases hr : truthyOpt (lookupField d "recipient") <;>
    cases ha : truthyOpt (lookupField d "amount") <;>
      simp [sendMissing, hr, ha]

theorem token_not_mem_sendMissing (d : List (String × Json)) :
    "token" ∉ sendMissing d := by
  cases hr : truthyOpt (lookupField d "recipient") <;>
    cases ha : truthyOpt (lookupField d "amount") <;>
      simp [sendMissing, hr, ha]

theorem applySendTxValidation_reduce (af d : List (String × Json))
    (hdet : lookupField af "details" = some (.obj d)) :
    ∃ d1 : List (String × Json),
      applySendTxValidation (.obj af) =
        some (.obj (setFields (setFields (setFields af "details" (.obj d1))
          "missingFields" (.arr ((sendMissing d).map Json.str)))
          "isComplete" (.jbool (sendMissing d).isEmpty))) ∧
      lookupField d1 "recipient" = lookupField d "recipient" ∧
      lookupField d1 "amount" = lookupField d "amount" ∧
      (truthyOpt (lookupField d "token") = false →
        lookupField d1 "token" = some (.str "BNB")) ∧
      (truthyOpt (lookupField d "token") = true →
        lookupField d1 "token" = lookupField d "token") := by
  cases htok : truthyOpt (lookupField d "token") with
  | false =>
    have hr : lookupField (setFields d "token" (.str "BNB")) "recipient" =
        lookupField d "recipient" := lookupField_setFields_ne _ _ _ _ (by decide)
    have ha : lookupField (setFields d "token" (.str "BNB")) "amount" =
        lookupField d "amount" := lookupField_setFields_ne _ _ _ _ (by decide)
    refine ⟨setFields d "token" (.str "BNB"), ?_, hr, ha,
      fun _ => lookupField_setFields_self _ _ _,
      fun hc => absurd hc (by decide)⟩
    simp only [applySendTxValidation, Json.getField, hdet, htok, Bool.false_eq_true,
      if_false, hr, ha, Json.setField, sendMissing]
  | true =>
    refine ⟨d, ?_, rfl, rfl, fun hc => absurd hc (by decide), fun _ => rfl⟩
    simp only [applySendTxValidation, Json.getField, hdet, htok, if_true,
      eq_self_iff_true, Json.setField, sendMissing]

theorem processParsed_sendTx (raw : String)
    (jf af : List (String × Json)) (act2 : Json) (g : List (String × Json))
    (hact : lookupField jf "action" = some (.obj af))
    (hkind : lookupField af "action" = some (.str "send_transaction"))
    (happ : applySendTxValidation (.obj af) = some act2)
    (hobj : act2 = .obj g) :
    processParsed raw (.obj jf) = some
      { response := (match lookupField (setFields jf "action" act2) "response" with
                     | some v => if v.truthy then v else .str raw
                     | none => .str raw),
        action := some act2,
        requiresConfirmation :=
          truthyOpt (lookupField (setFields jf "action" act2) "requiresConfirmation") } := by
  simp [processParsed, Json.getField, hact, hkind, Json.asStr?, happ, hobj,
    lookupField_setFields_self, Json.truthy, Json.setField]

theorem parseAIResponse_sendTx (jp : String → Option Json) (raw s : String)
    (jf af d : List (String × Json))
    (hx : extractFencedJson raw = some s)
    (hjp : jp s = some (.obj jf))
    (hact : lookupField jf "action" = some (.obj af))
    (hkind : lookupField af "action" = some (.str "send_transaction"))
    (hdet : lookupField af "details" = some (.obj d)) :
    ∃ d1 : List (String × Json),
      (parseAIResponse jp raw).action = some (.obj
        (setFields (setFields (setFields af "details" (.obj d1))
          "missingFields" (.arr ((sendMissing d).map Json.str)))
          "isComplete" (.jbool (sendMissing d).isEmpty))) ∧
      lookupField d1 "recipient" = lookupField d "recipient" ∧
      lookupField d1 "amount" = lookupField d "amount" ∧
      (truthyOpt (lookupField d "token") = false →
        lookupField d1 "token" = some (.str "BNB")) ∧
      (truthyOpt (lookupField d "token") = true →
        lookupField d1 "token" = lookupField d "token") := by
  obtain ⟨d1, happ, hr, ha, ht1, ht2⟩ := applySendTxValidation_reduce af d hdet
  have hp := processParsed_sendTx raw jf af _ _ hact hkind happ rfl
  refine ⟨d1, ?_, hr, ha, ht1, ht2⟩
  simp only [parseAIResponse, hx, hjp, hp]

/-- C10: for a parsed `send_transaction` action, an absent or empty token
field is silently replaced by the native asset `'BNB'`; `token` never
appears in the recomputed missing-fields list; and the completeness
flag is exactly the truthiness of recipient and amount, so the token
field never affects it. -/
theorem send_token_default (jp : String → Option Json) (raw s : String)
    (jf af d : List (String × Json))
    (hx : extractFencedJson raw = some s)
    (hjp : jp s = some (.obj jf))
    (hact : lookupField jf "action" = some (.obj af))
    (hkind : lookupField af "action" = some (.str "send_transaction"))
    (hdet : lookupField af "details" = some (.obj d)) :
    ∃ a' d1 : List (String × Json),
      (parseAIResponse jp raw).action = some (.obj a') ∧
      lookupField a' "details" = some (.obj d1) ∧
      lookupField a' "missingFields" = some (.arr ((sendMissing d).map Json.str)) ∧
      lookupField a' "isComplete" =
        some (.jbool (truthyOpt (lookupField d "recipient") &&
          truthyOpt (lookupField d "amount"))) ∧
      "token" ∉ sendMissing d ∧
      ((lookupField d "token" = none ∨ lookupField d "token" = some (.str "")) →
        lookupField d1 "token" = some (.str "BNB")) := by
  obtain ⟨d1, hac, hr, ha, ht1, ht2⟩ :=
    parseAIResponse_sendTx jp raw s jf af d hx hjp hact hkind hdet
  refine ⟨_, d1, hac, ?_, ?_, ?_, token_not_mem_sendMissing d, ?_⟩
  · rw [lookupField_setFields_ne _ _ _ _ (by decide),
        lookupField_setFields_ne _ _ _ _ (by decide)]
    exact lookupField_setFields_self _ _ _
  · rw [lookupField_setFields_ne _ _ _ _ (by decide)]
    exact lookupField_setFields_self _ _ _
  · rw [lookupField_setFields_self, sendMissing_isEmpty]
  · intro htok
    apply ht1
    rcases htok with h | h <;> rw [h] <;> rfl

/-- Concrete details for the C10 witness: token absent. -/
def sendDetails10 : List (String × Json) :=
  [("recipient", .str "0xabc"), ("amount", .str "2")]

/-- Concrete action object for the C10 witness. -/
def sendAction10 : List (String × Json) :=
  [("action", .str "send_transaction"), ("confidence", .num 1),
   ("details", .obj sendDetails10), ("missingFields", .arr []),
   ("isComplete", .jbool false)]

/-- Concrete parsed root object for the C10 witness. -/
def root10 : List (String × Json) :=
  [("response", .str "Sending"), ("action", .obj sendAction10),
   ("requiresConfirmation", .jbool true)]

/-- Concrete raw oracle text for the C10 witness. -/
def raw10 : String := "```json\nPAYLOAD10\n```"

/-- Concrete `JSON.parse` behavior for the C10 witness. -/
def jp10 : String → Option Json :=
  fun s => if s = "PAYLOAD10" then some (.obj root10) else none

/-- Witness for C10 at a concrete transfer with no token field. -/
theorem send_token_default_witness :
    ∃ a' d1 : List (String × Json),
      (parseAIResponse jp10 raw10).action = some (.obj a') ∧
      lookupField a' "details" = some (.obj d1) ∧
      lookupField a' "missingFields" =
        some (.arr ((sendMissing sendDetails10).map Json.str)) ∧
      lookupField a' "isComplete" =
        some (.jbool (truthyOpt (lookupField sendDetails10 "recipient") &&
          truthyOpt (lookupField sendDetails10 "amount"))) ∧
      "token" ∉ sendMissing sendDetails10 ∧
      ((lookupField sendDetails10 "token" = none ∨
          lookupField sendDetails10 "token" = some (.str "")) →
        lookupField d1 "token" = some (.str "BNB")) :=
  send_token_default jp10 raw10 "PAYLOAD10" root10 sendAction10 sendDetails10
    (by decide) rfl rfl rfl rfl

/-- C3 (amended): for a parsed `send_transaction` action the parse
boundary recomputes the missing-fields list as exactly the falsy ones
among recipient and amount, and the completeness flag is true iff that
list is empty, i.e. iff recipient and amount are both truthy — no
syntactic validation of the recipient address and no positivity check
of the amount happens at this boundary. -/
theorem send_completeness (jp : String → Option Json) (raw s : String)
    (jf af d : List (String × Json))
    (hx : extractFencedJson raw = some s)
    (hjp : jp s = some (.obj jf))
    (hact : lookupField jf "action" = some (.obj af))
    (hkind : lookupField af "action" = some (.str "send_transaction"))
    (hdet : lookupField af "details" = some (.obj d)) :
    ∃ a' : List (String × Json),
      (parseAIResponse jp raw).action = some (.obj a') ∧
      lookupField a' "missingFields" = some (.arr ((sendMissing d).map Json.str)) ∧
      lookupField a' "isComplete" = some (.jbool ((sendMissing d).isEmpty)) ∧
      ((sendMissing d).isEmpty = true ↔
        truthyOpt (lookupField d "recipient") = true ∧
        truthyOpt (lookupField d "amount") = true) := by
  obtain ⟨d1, hac, -, -, -, -⟩ :=
    parseAIResponse_sendTx jp raw s jf af d hx hjp hact hkind hdet
  refine ⟨_, hac, ?_, lookupField_setFields_self _ _ _, ?_⟩
  · rw [lookupField_setFields_ne _ _ _ _ (by decide)]
    exact lookupField_setFields_self _ _ _
  · rw [sendMissing_isEmpty]
    simp

/-- Syntactic validity of a chain address as the specification demands
of a complete transfer: `0x` followed by 40 hexadecimal digits. -/
def isHexDigit (c : Char) : Bool :=
  c.isDigit || ('a' ≤ c && c ≤ 'f') || ('A' ≤ c && c ≤ 'F')

/-- Address well-formedness (specification-side predicate). -/
def isValidAddress (s : String) : Bool :=
  decide (s.data.length = 42) && isPrefixCL "0x".data s.data &&
    (s.data.drop 2).all isHexDigit

/-- Positivity of an amount value (specification-side predicate). -/
def isPositiveAmount : Json → Bool
  | .num q => decide (0 < q)
  | _ => false

/-- Concrete details for the C3 counterexample: a recipient that is not
an address and a negative amount, both truthy. -/
def sendDetails3 : List (String × Json) :=
  [("recipient", .str "hello"), ("amount", .num (-5)), ("token", .str "BNB")]

/-- Concrete action object for the C3 counterexample. -/
def sendAction3 : List (String × Json) :=
  [("action", .str "send_transaction"), ("confidence", .num 1),
   ("details", .obj sendDetails3), ("missingFields", .arr []),
   ("isComplete", .jbool false)]

/-- Concrete parsed root object for the C3 counterexample. -/
def root3 : List (String × Json) :=
  [("response", .str "Sending"), ("action", .obj sendAction3),
   ("requiresConfirmation", .jbool true)]

/-- Concrete raw oracle text for the C3 counterexample. -/
def raw3 : String := "```json\nPAYLOAD3\n```"

/-- Concrete `JSON.parse` behavior for the C3 counterexample. -/
def jp3 : String → Option Json :=
  fun s => if s = "PAYLOAD3" then some (.obj root3) else none

/-- The action the parse boundary produces on the C3 counterexample. -/
def c3Out : Json := ((parseAIResponse jp3 raw3).action).getD .null

/-- Counterexample for C3 as stated: the boundary marks this transfer
complete (missing-fields empty) although the recipient is not a
syntactically valid chain address and the amount is not positive, so
"complete iff fields individually valid" fails. -/
theorem send_completeness_counterexample :
    ¬(truthyOpt (c3Out.getField "isComplete") = true ↔
        (c3Out.getField "missingFields" = some (.arr []) ∧
         (∃ r : String,
            (c3Out.getField "details").bind (fun dj => dj.getField "recipient") =
              some (.str r) ∧ isValidAddress r = true) ∧
         (∃ v : Json,
            (c3Out.getField "details").bind (fun dj => dj.getField "amount") =
              some v ∧ isPositiveAmount v = true))) := by
  intro h
  obtain ⟨-, ⟨r, hr, hvr⟩, -⟩ := h.mp (by rfl)
  rw [show (c3Out.getField "details").bind (fun dj => dj.getField "recipient") =
      some (.str "hello") from rfl] at hr
  simp only [Option.some.injEq, Json.str.injEq] at hr
  subst hr
  exact absurd hvr (by decide)

/-- Witness for C3's amended claim at the same concrete transfer: both
fields truthy, so the missing list is empty and the flag is set. -/
theorem send_completeness_witness :
    ∃ a' : List (String × Json),
      (parseAIResponse jp3 raw3).action = some (.obj a') ∧
      lookupField a' "missingFields" =
        some (.arr ((sendMissing sendDetails3).map Json.str)) ∧
      lookupField a' "isComplete" = some (.jbool ((sendMissing sendDetails3).isEmpty)) ∧
      ((sendMissing sendDetails3).isEmpty = true ↔
        truthyOpt (lookupField sendDetails3 "recipient") = true ∧
        truthyOpt (lookupField sendDetails3 "amount") = true) :=
  send_completeness jp3 raw3 "PAYLOAD3" root3 sendAction3 sendDetails3
    (by decide) rfl rfl rfl rfl

/-! ### NFT upload-detail negotiation (C5, C6) -/

/-- The concrete chat state of scenario C6: image uploaded, waiting for
details, nothing captured beforehand. -/
def chat6 : ChatState :=
  { conv := { messages := [], pendingAction := none, isProcessing := false },
    uploadedImage := some ("https://greenfield.example/dawn.png", "dawn.png"),
    isWaitingForNFTDetails := true, pendingNFTDetails := none }

/-- The state after the user replies `"Call it Dawn"` in scenario C6. -/
def c6Result : ChatState :=
  (handleSendMessage envA (fun _ => none) (Except.error ()) chat6 "Call it Dawn").1

/-- The name of the `mint_nft` action synthesized in scenario C6. -/
def c6Name : Option Json :=
  match c6Result.conv.pendingAction with
  | some pa => (pa.action.getField "details").bind (fun dj => dj.getField "name")
  | none => none

/-- Counterexample for C6 as stated: the reply `"Call it Dawn"` falls to
the short-message heuristic, so the whole message becomes the name —
`"Call it Dawn"`, not `"Dawn"`. -/
theorem nft_name_scenario_counterexample :
    c6Name = some (.str "Call it Dawn") ∧ c6Name ≠ some (.str "Dawn") := by
  refine ⟨rfl, ?_⟩
  intro h
  rw [show c6Name = some (.str "Call it Dawn") from rfl] at h
  simp at h

/-- C6 (amended): in the waiting-for-NFT-details sub-state with no prior
pending details, the reply `"Call it Dawn"` synthesizes a complete
`mint_nft` action whose name is the entire message `"Call it Dawn"`,
whose description is the fixed placeholder, and the gate enters
awaiting-confirmation without consulting the oracle. -/
theorem nft_name_scenario :
    ∃ pa : PendingAction, c6Result.conv.pendingAction = some pa ∧
      pa.isWaitingForConfirmation = true ∧
      pa.action = mkNftAction (.str "Call it Dawn") (.str placeholderDescription)
        (.str "https://greenfield.example/dawn.png") ∧
      pa.action.getField "isComplete" = some (.jbool true) ∧
      c6Result.isWaitingForNFTDetails = false ∧
      (handleSendMessage envA (fun _ => none) (Except.error ()) chat6
        "Call it Dawn").2.oracleCalls = 0 :=
  ⟨{ action := mkNftAction (.str "Call it Dawn") (.str placeholderDescription)
      (.str "https://greenfield.example/dawn.png"),
     messageId := "m1", isWaitingForConfirmation := true },
   rfl, rfl, rfl, rfl, rfl, rfl⟩

/-- Whether the parsing cascade failed to capture a name (both
early-return re-prompts and an empty captured name). -/
def nftReplyNoName : NFTReplyOutcome → Bool
  | .fields name _ => decide (name = "")
  | _ => true

/-- Whether the stored pre-upload details are unusable (absent, or with
neither a truthy name nor a truthy description). -/
def pendingNFTIneffective : Option NFTDetailsPending → Bool
  | none => true
  | some pd => !(truthyOpt pd.name || truthyOpt pd.description)

/-- The concrete chat state of the C5 counterexample: stored pre-upload
details with a description but no name. -/
def chat5 : ChatState :=
  { conv := { messages := [], pendingAction := none, isProcessing := false },
    uploadedImage := none, isWaitingForNFTDetails := false,
    pendingNFTDetails := some { name := none, description := some (.str "A scenic view") } }

/-- The state after the upload completes in the C5 counterexample. -/
def c5Result : ChatState := handleUploadComplete envA chat5 "https://gf/img.png" "img.png"

/-- The name of the `mint_nft` action synthesized in the C5
counterexample. -/
def c5Name : Option Json :=
  match c5Result.conv.pendingAction with
  | some pa => (pa.action.getField "details").bind (fun dj => dj.getField "name")
  | none => none

/-- Counterexample for C5 as stated: when the upload completes with
stored details holding only a description, no parseable name was ever
captured, yet the coordinator synthesizes a pending `mint_nft` action
with the forced default name `'Untitled NFT'` instead of re-prompting. -/
theorem upload_name_mandatory_counterexample :
    chat5.pendingNFTDetails =
      some { name := none, description := some (.str "A scenic view") } ∧
    (c5Result.conv.pendingAction).isSome = true ∧
    c5Name = some (.str "Untitled NFT") :=
  ⟨rfl, rfl, rfl⟩

/-- C5 (amended): in the free-text detail path a name is mandatory: when
the parsing cascade captures no name, `handleNFTDetailsAfterUpload`
appends a re-prompt, creates no pending action, leaves the waiting flag
unchanged and substitutes no default name; any pending action the
handler does create carries exactly the nonempty name captured from the
user's reply.  `handleUploadComplete` with no usable stored details
likewise only asks for details and creates no pending action.  (When
stored details hold a truthy description but no name, the source
defaults the name to `'Untitled NFT'` — the counterexample to the
original claim.) -/
theorem upload_name_mandatory (env : Env) (st : ChatState)
    (input url fileName : String) (img : String × String)
    (himg : st.uploadedImage = some img) :
    (nftReplyNoName (parseNFTReply input) = true →
      (handleNFTDetailsAfterUpload env st input).conv.pendingAction =
        st.conv.pendingAction ∧
      (handleNFTDetailsAfterUpload env st input).isWaitingForNFTDetails =
        st.isWaitingForNFTDetails ∧
      ∃ c, c ∈ [needNameToProceedText, needNameSkipText, needNameText] ∧
        (handleNFTDetailsAfterUpload env st input).conv.messages =
          st.conv.messages ++ [mkMsg env .ai c]) ∧
    (∀ pa, (handleNFTDetailsAfterUpload env st input).conv.pendingAction = some pa →
      st.conv.pendingAction = some pa ∨
      ∃ name desc, parseNFTReply input = .fields name desc ∧ name ≠ "" ∧
        (pa.action.getField "details").bind (fun dj => dj.getField "name") =
          some (.str name)) ∧
    (pendingNFTIneffective st.pendingNFTDetails = true →
      (handleUploadComplete env st url fileName).conv.pendingAction =
        st.conv.pendingAction ∧
      (handleUploadComplete env st url fileName).isWaitingForNFTDetails = true ∧
      (handleUploadComplete env st url fileName).conv.messages =
        st.conv.messages ++ [{ mkMsg env .ai askDetailsContent with
          uploadedImage := some (url, fileName) }]) := by
  refine ⟨?_, ?_, ?_⟩
  · intro hno
    simp only [handleNFTDetailsAfterUpload, himg]
    cases hp : parseNFTReply input with
    | needNameToProceed =>
      exact ⟨rfl, rfl, needNameToProceedText, by simp, rfl⟩
    | needNameSkip =>
      exact ⟨rfl, rfl, needNameSkipText, by simp, rfl⟩
    | fields name desc =>
      rw [hp] at hno
      simp only [nftReplyNoName, decide_eq_true_eq] at hno
      subst hno
      exact ⟨rfl, rfl, needNameText, by simp, rfl⟩
  · cases hp : parseNFTReply input with
    | needNameToProceed =>
      intro pa hpa
      simp only [handleNFTDetailsAfterUpload, himg, hp, pushAi] at hpa
      exact Or.inl hpa
    | needNameSkip =>
      intro pa hpa
      simp only [handleNFTDetailsAfterUpload, himg, hp, pushAi] at hpa
      exact Or.inl hpa
    | fields name desc =>
      intro pa hpa
      simp only [handleNFTDetailsAfterUpload, himg, hp] at hpa
      by_cases hname : name = ""
      · rw [if_pos hname] at hpa
        simp only [pushAi] at hpa
        exact Or.inl hpa
      · rw [if_neg hname] at hpa
        cases hgc : env.genConfirm (mkNftAction (.str name)
            (.str (if desc = "" then placeholderDescription else desc)) (.str img.1)) with
        | ok cm =>
          rw [hgc] at hpa
          simp only [Option.some.injEq] at hpa
          refine Or.inr ⟨name, desc, rfl, hname, ?_⟩
          rw [← hpa]
          rfl
        | error e =>
          rw [hgc] at hpa
          simp only [pushAi] at hpa
          exact Or.inl hpa
  · intro hin
    simp only [handleUploadComplete]
    cases hpd : st.pendingNFTDetails with
    | none =>
      exact ⟨rfl, rfl, rfl⟩
    | some pd =>
      rw [hpd] at hin
      simp only [pendingNFTIneffective, Bool.not_eq_true'] at hin
      simp only [hin, Bool.false_eq_true, if_false]
      exact ⟨rfl, rfl, rfl⟩

/-- Concrete chat state for the C5 witness: image uploaded, waiting for
details, nothing stored. -/
def chat5w : ChatState :=
  { conv := { messages := [], pendingAction := none, isProcessing := false },
    uploadedImage := some ("https://gf/x.png", "x.png"),
    isWaitingForNFTDetails := true, pendingNFTDetails := none }

/-- Witness for C5's amended claim: the nameless reply `"confirm"` only
re-prompts and creates no pending action. -/
theorem upload_name_mandatory_witness :
    (handleNFTDetailsAfterUpload envA chat5w "confirm").conv.pendingAction =
      chat5w.conv.pendingAction ∧
    (handleNFTDetailsAfterUpload envA chat5w "confirm").isWaitingForNFTDetails =
      chat5w.isWaitingForNFTDetails ∧
    ∃ c, c ∈ [needNameToProceedText, needNameSkipText, needNameText] ∧
      (handleNFTDetailsAfterUpload envA chat5w "confirm").conv.messages =
        chat5w.conv.messages ++ [mkMsg envA .ai c] :=
  (upload_name_mandatory envA chat5w "confirm" "https://gf/x.png" "x.png"
    ("https://gf/x.png", "x.png") rfl).1 (by decide)
